import Mathlib

set_option maxRecDepth 8000

/-!
Verification of the stratatools cartridge manager (`src/stratatools/manager.py`)
against its natural-language specification.

The Python code is shallowly embedded: byte buffers (`bytearray`) become
`List Nat` whose elements are byte values, `struct.pack_into` becomes `writeBytes`,
slice reads become `readBytes`, slice assignment becomes `spliceBytes`, and the
injected collaborators (`self.checksum.checksum`, `self.crypto.encrypt`,
`self.crypto.decrypt`) become function parameters, exactly as they are opaque
ports in the source.  Python exceptions become `Except` values tagged by the
raise site.  IEEE-754 doubles are embedded as their 64-bit little-endian bit
patterns; the only place the numeric value of a double matters is the material
identifier, for which the exact integer encode/decode pair is modelled
(`natToF64bits` / `f64bitsToInt`).
-/

namespace Stratatools

/-- Byte read `buf[off : off+len]` of a Python bytearray (clamped at the end,
exactly like a Python slice). -/
def readBytes (buf : List Nat) (off len : Nat) : List Nat :=
  (buf.drop off).take len

/-- Fixed-width in-place write `struct.pack_into(fmt, buf, off, data)`:
overwrites `data.length` bytes starting at `off`. -/
def writeBytes (buf : List Nat) (off : Nat) (data : List Nat) : List Nat :=
  buf.take off ++ data ++ buf.drop (off + data.length)

/-- Python slice assignment `buf[lo:hi] = data` (the general splice; for
length-preserving data it agrees with `writeBytes`). -/
def spliceBytes (buf : List Nat) (lo hi : Nat) (data : List Nat) : List Nat :=
  buf.take lo ++ data ++ buf.drop hi

/-- Little-endian bytes of a 16-bit value, as written by `struct.pack_into("<H", ...)`. -/
def le16 (n : Nat) : List Nat := [n % 256, n / 256 % 256]

/-- Value read by `struct.unpack("<H", bs)` from two little-endian bytes. -/
def le16val (bs : List Nat) : Nat := bs.getD 0 0 + 256 * bs.getD 1 0

/-- Little-endian bytes of a 64-bit pattern, as written by `struct.pack_into("<d", ...)`
for the bit pattern of the double, or `"<Q"`-style raw 8-byte little-endian data. -/
def le64 (n : Nat) : List Nat :=
  [n % 256, n / 256 % 256, n / 65536 % 256, n / 16777216 % 256, n / 4294967296 % 256,
    n / 1099511627776 % 256, n / 281474976710656 % 256, n / 72057594037927936 % 256]

/-- 64-bit little-endian value of 8 bytes. -/
def le64val (bs : List Nat) : Nat :=
  bs.getD 0 0 + 256 * bs.getD 1 0 + 65536 * bs.getD 2 0 + 16777216 * bs.getD 3 0 +
    4294967296 * bs.getD 4 0 + 1099511627776 * bs.getD 5 0 +
    281474976710656 * bs.getD 6 0 + 72057594037927936 * bs.getD 7 0

/-- Fixed-width `"<Ns"` string packing: truncate to `w` bytes or right-pad with
zero bytes, per the Python struct semantics for the `s` format. -/
def padTrunc (w : Nat) (data : List Nat) : List Nat :=
  data.take w ++ List.replicate (w - data.length) 0

/-- Flip bit `b` of the byte at offset `p` of a buffer. -/
def flipBit (buf : List Nat) (p b : Nat) : List Nat :=
  writeBytes buf p [buf.getD p 0 ^^^ 2 ^ b]

/-- Fuel-driven floor base-2 logarithm (structurally recursive, so that closed
terms evaluate inside the kernel). -/
def log2Aux : Nat → Nat → Nat
  | 0, _ => 0
  | fuel + 1, n => if 2 ≤ n then log2Aux fuel (n / 2) + 1 else 0

/-- Floor base-2 logarithm; agrees with `Nat.log2`. -/
def log2floor (n : Nat) : Nat := log2Aux n n

/-- Bit pattern of the IEEE-754 binary64 value of a natural number, as produced
by `struct.pack("<d", n)` in Python.  Exact (round-off free) for `n < 2 ^ 53`,
which covers every material identifier; the claims never evaluate it outside
that range. -/
def natToF64bits (n : Nat) : Nat :=
  if n = 0 then 0
  else (1023 + log2floor n) * 2 ^ 52 + (n * 2 ^ (52 - log2floor n) - 2 ^ 52)

/-- Magnitude of the finite double with bit pattern `b`, truncated toward zero
(the integer part extracted by Python `int(...)`). -/
def f64mag (b : Nat) : Nat :=
  if b / 2 ^ 52 % 2 ^ 11 = 0 then 0
  else if 1075 ≤ b / 2 ^ 52 % 2 ^ 11 then
    (2 ^ 52 + b % 2 ^ 52) * 2 ^ (b / 2 ^ 52 % 2 ^ 11 - 1075)
  else (2 ^ 52 + b % 2 ^ 52) / 2 ^ (1075 - b / 2 ^ 52 % 2 ^ 11)

/-- Python `int(struct.unpack("<d", bs)[0])`: value of the double with bit
pattern `b`, truncated toward zero.  (For the exponent 0x7FF the Python call
raises on inf/nan; no claim evaluates the conversion there.) -/
def f64bitsToInt (b : Nat) : Int :=
  if b / 2 ^ 63 % 2 = 1 then -(f64mag b : Int) else (f64mag b : Int)

/-- Calendar timestamp at second precision, the granularity stored on the wire
(the packing reads only year/month/day/hour/minute/second of the datetime, so
sub-second precision is truncated before it ever reaches the image). -/
structure Date where
  year : Nat
  month : Nat
  day : Nat
  hour : Nat
  minute : Nat
  second : Nat
deriving DecidableEq, Repr

/-- Domain record (`cartridge_pb2.Cartridge`).  Doubles are embedded as their
64-bit IEEE-754 bit patterns (`serial_number`, the two quantities); equality of
bit patterns coincides with Python float equality for the non-NaN values a
valid record carries.  `manufacturing_lot` and `signature` are the UTF-8 bytes
of the strings; `key_fragment` is the 8 raw bytes that the hexadecimal proto
field denotes (`bytearray.fromhex` on pack, `.hex()` on unpack). -/
structure Cartridge where
  serial_number : Nat
  material_name : String
  manufacturing_lot : List Nat
  version : Nat
  manufacturing_date : Date
  last_use_date : Date
  initial_material_quantity : Nat
  current_material_quantity : Nat
  key_fragment : List Nat
  signature : List Nat
deriving DecidableEq, Repr

/-- Raise sites of the bare Python `Exception`s of manager.py, tagged by their
message, plus the unknown-material failures of the material table (the spec's
`UnknownMaterialError`).  The spec groups the four checksum raise sites as
`IntegrityError`. -/
inductive Gate where
  /-- decrypt: "invalid crypted content checksum" (slot 0x46). -/
  | cryptedContent
  /-- decrypt: "invalid current material quantity checksum" (slot 0x60). -/
  | cryptedQuantity
  /-- unpack: "invalid content checksum" (slot 0x40). -/
  | plainContent
  /-- unpack: "invalid current material quantity checksum" (slot 0x62). -/
  | plainQuantity
deriving DecidableEq, Repr

/-- Errors surfaced by the embedded pipeline. -/
inductive Err where
  | integrity (g : Gate)
  | unknownMaterialName (name : String)
  | unknownMaterialId (id : Int)
deriving DecidableEq, Repr

instance {ε α : Type} [DecidableEq ε] [DecidableEq α] : DecidableEq (Except ε α) := by
  intro a b
  cases a <;> cases b <;> first
    | (apply isFalse; intro h; exact Except.noConfusion h)
    | · rename_i x y
        exact if h : x = y then isTrue (by rw [h])
          else isFalse (by intro hc; cases hc; exact h rfl)

/-- Material lookup table: name, numeric identifier pairs. -/
abbrev MaterialTable := List (String × Nat)

/-- Modelled from the spec: `material.get_id_from_name` — the material module is
not under src/; per the Material Table contract an unknown name fails with
`UnknownMaterialError`, modelled here as a `none` result that the pipeline turns
into `Err.unknownMaterialName`. -/
def get_id_from_name (table : MaterialTable) (name : String) : Option Nat :=
  (table.find? (fun e => e.1 == name)).map (·.2)

/-- Modelled from the spec: `material.get_name_from_id` — inverse lookup; an
unknown identifier fails with `UnknownMaterialError`, modelled as `none`. -/
def get_name_from_id (table : MaterialTable) (id : Int) : Option String :=
  (table.find? (fun e => (e.2 : Int) == id)).map (·.1)

/-- Checksum Port (`self.checksum.checksum`): bytes to 16-bit integer. -/
abbrev Checksum := List Nat → Nat

/-- One direction of the Cipher Port (`self.crypto.encrypt` or
`self.crypto.decrypt`): key bytes and data bytes to transformed bytes. -/
abbrev Cipher := List Nat → List Nat → List Nat

/-- Python `~x & 0xff` on a byte value. -/
def compl8 (x : Nat) : Nat := 255 - x % 256

/-- Manager.build_key: the fixed byte-selection and complement table of
manager.py lines 226-248. -/
def Manager.build_key (cartridge_key machine_number eeprom_uid : List Nat) : List Nat :=
  [compl8 (cartridge_key.getD 0 0),
   compl8 (cartridge_key.getD 2 0),
   compl8 (eeprom_uid.getD 2 0),
   compl8 (cartridge_key.getD 6 0),
   compl8 (machine_number.getD 0 0),
   compl8 (machine_number.getD 2 0),
   compl8 (eeprom_uid.getD 6 0),
   compl8 (machine_number.getD 6 0),
   compl8 (machine_number.getD 7 0),
   compl8 (eeprom_uid.getD 1 0),
   compl8 (machine_number.getD 3 0),
   compl8 (machine_number.getD 1 0),
   compl8 (cartridge_key.getD 7 0),
   compl8 (eeprom_uid.getD 5 0),
   compl8 (cartridge_key.getD 3 0),
   compl8 (cartridge_key.getD 1 0)]

/-- Date packing `struct.pack_into("<HBBBBH", ..., year - 1900, month, day, hour,
minute, second)` (8 bytes).  Python struct raises for out-of-range values; valid
records keep every component in range, so the embedding wraps instead. -/
def packDate (d : Date) : List Nat :=
  le16 (d.year - 1900) ++ [d.month % 256, d.day % 256, d.hour % 256, d.minute % 256] ++
    le16 d.second

/-- Date unpacking `struct.unpack_from("<HBBBBH", ...)` followed by
`datetime.datetime(year + 1900, ...)`.  The datetime range validation (which
would raise for nonsense components) is not modelled; no claim evaluates it on
an out-of-range decrypted buffer. -/
def unpackDate (bs : List Nat) : Date :=
  { year := le16val (readBytes bs 0 2) + 1900
    month := bs.getD 2 0
    day := bs.getD 3 0
    hour := bs.getD 4 0
    minute := bs.getD 5 0
    second := le16val (readBytes bs 6 2) }

/-- The in-range conditions under which the calendar fields survive the
fixed-width wire format (`datetime` guarantees them for any real datetime). -/
def ValidDate (d : Date) : Prop :=
  1900 ≤ d.year ∧ d.year ≤ 9999 ∧ 1 ≤ d.month ∧ d.month ≤ 12 ∧ 1 ≤ d.day ∧ d.day ≤ 31 ∧
    d.hour ≤ 23 ∧ d.minute ≤ 59 ∧ d.second ≤ 59

instance (d : Date) : Decidable (ValidDate d) := by
  unfold ValidDate
  infer_instance

/-- Well-formedness of a record per the data-model table of the spec (field
widths and ranges); these are exactly the records the Python types can carry
onto the wire without truncation. -/
def ValidCartridge (c : Cartridge) : Prop :=
  c.serial_number < 18446744073709551616 ∧
    c.initial_material_quantity < 18446744073709551616 ∧
    c.current_material_quantity < 18446744073709551616 ∧
    c.version < 65536 ∧
    ValidDate c.manufacturing_date ∧ ValidDate c.last_use_date ∧
    c.manufacturing_lot.length ≤ 20 ∧ (∀ b ∈ c.manufacturing_lot, b ≠ 0 ∧ b < 256) ∧
    c.key_fragment.length = 8 ∧ (∀ b ∈ c.key_fragment, b < 256) ∧
    c.signature.length = 9 ∧ (∀ b ∈ c.signature, b < 256)

instance (c : Cartridge) : Decidable (ValidCartridge c) := by
  unfold ValidCartridge
  infer_instance

/-! The packing pipeline of `Manager.pack` (manager.py lines 61-104), one
definition per `struct.pack_into` statement, applied in source order to the
fresh `bytearray(0x71)`. -/

/-- Line 65: serial number at 0x00. -/
def packE1 (c : Cartridge) : List Nat :=
  writeBytes (List.replicate 0x71 0) 0x00 (le64 c.serial_number)

/-- Line 67: material id (as a double) at 0x08. -/
def packE2 (c : Cartridge) (mid : Nat) : List Nat :=
  writeBytes (packE1 c) 0x08 (le64 (natToF64bits mid))

/-- Line 69: manufacturing lot at 0x10, 20 bytes. -/
def packE3 (c : Cartridge) (mid : Nat) : List Nat :=
  writeBytes (packE2 c mid) 0x10 (padTrunc 20 c.manufacturing_lot)

/-- Line 71: version at 0x24. -/
def packE4 (c : Cartridge) (mid : Nat) : List Nat :=
  writeBytes (packE3 c mid) 0x24 (le16 c.version)

/-- Lines 73-80: manufacturing date at 0x28. -/
def packE5 (c : Cartridge) (mid : Nat) : List Nat :=
  writeBytes (packE4 c mid) 0x28 (packDate c.manufacturing_date)

/-- Lines 82-89: last use date at 0x30. -/
def packE6 (c : Cartridge) (mid : Nat) : List Nat :=
  writeBytes (packE5 c mid) 0x30 (packDate c.last_use_date)

/-- Line 90: initial material quantity at 0x38. -/
def packE7 (c : Cartridge) (mid : Nat) : List Nat :=
  writeBytes (packE6 c mid) 0x38 (le64 c.initial_material_quantity)

/-- Line 92: plaintext checksum of [0x00,0x40) stored at 0x40. -/
def packE8 (ck : Checksum) (c : Cartridge) (mid : Nat) : List Nat :=
  writeBytes (packE7 c mid) 0x40 (le16 (ck (readBytes (packE7 c mid) 0x00 0x40)))

/-- Line 94: key fragment at 0x48. -/
def packE9 (ck : Checksum) (c : Cartridge) (mid : Nat) : List Nat :=
  writeBytes (packE8 ck c mid) 0x48 (padTrunc 8 c.key_fragment)

/-- Line 96: key checksum at 0x50. -/
def packE10 (ck : Checksum) (c : Cartridge) (mid : Nat) : List Nat :=
  writeBytes (packE9 ck c mid) 0x50 (le16 (ck (readBytes (packE9 ck c mid) 0x48 8)))

/-- Line 98: current material quantity at 0x58. -/
def packE11 (ck : Checksum) (c : Cartridge) (mid : Nat) : List Nat :=
  writeBytes (packE10 ck c mid) 0x58 (le64 c.current_material_quantity)

/-- Line 100: checksum of the plaintext quantity bytes stored at 0x62. -/
def packE12 (ck : Checksum) (c : Cartridge) (mid : Nat) : List Nat :=
  writeBytes (packE11 ck c mid) 0x62 (le16 (ck (readBytes (packE11 ck c mid) 0x58 8)))

/-- Line 102: signature at 0x68, 9 bytes — the full packed 113-byte buffer. -/
def packBody (ck : Checksum) (c : Cartridge) (mid : Nat) : List Nat :=
  writeBytes (packE12 ck c mid) 0x68 (padTrunc 9 c.signature)

/-- Manager.pack (lines 61-104).  The material lookup (line 67) raises
`UnknownMaterialError` for an unknown name, aborting with no image; the source
performs the lookup after writing the serial number, but the discarded partial
buffer makes the factored form observationally identical. -/
def Manager.pack (ck : Checksum) (table : MaterialTable) (c : Cartridge) :
    Except Err (List Nat) :=
  match get_id_from_name table c.material_name with
  | none => .error (.unknownMaterialName c.material_name)
  | some mid => .ok (packBody ck c mid)

/-- Manager.unpack (lines 109-175): two checksum gates, then field extraction;
the material lookup can fail on an unknown identifier. -/
def Manager.unpack (ck : Checksum) (table : MaterialTable) (p : List Nat) :
    Except Err Cartridge :=
  if ck (readBytes p 0x00 0x40) ≠ le16val (readBytes p 0x40 2) then
    .error (.integrity .plainContent)
  else if ck (readBytes p 0x58 8) ≠ le16val (readBytes p 0x62 2) then
    .error (.integrity .plainQuantity)
  else
    match get_name_from_id table (f64bitsToInt (le64val (readBytes p 0x08 8))) with
    | none => .error (.unknownMaterialId (f64bitsToInt (le64val (readBytes p 0x08 8))))
    | some name =>
        .ok { serial_number := le64val (readBytes p 0x00 8)
              material_name := name
              manufacturing_lot := (readBytes p 0x10 20).takeWhile (fun b => b != 0)
              version := le16val (readBytes p 0x24 2)
              manufacturing_date := unpackDate (readBytes p 0x28 8)
              last_use_date := unpackDate (readBytes p 0x30 8)
              initial_material_quantity := le64val (readBytes p 0x38 8)
              current_material_quantity := le64val (readBytes p 0x58 8)
              key_fragment := readBytes p 0x48 8
              signature := readBytes p 0x68 9 }

/-- Key used by encrypt/decrypt: built from the key-fragment slot of the very
buffer being transformed (line 187 / line 209). -/
def bufKey (buf machine_number eeprom_uid : List Nat) : List Nat :=
  Manager.build_key (readBytes buf 0x48 8) machine_number eeprom_uid

/-! The encryption pipeline of `Manager.encrypt` (lines 180-197).  Line 181
aliases `cartridge_crypted = cartridge_packed`: all four `pack_into` calls
mutate one shared buffer, so each step reads the buffer as left by the previous
step.  The step definitions make that aliasing explicit. -/

/-- Line 189: the header region [0x00,0x40) is overwritten with its encryption
(the argument slice is taken before the write). -/
def encB1 (enc : Cipher) (machine_number eeprom_uid p : List Nat) : List Nat :=
  writeBytes p 0x00 (padTrunc 64 (enc (bufKey p machine_number eeprom_uid) (readBytes p 0x00 0x40)))

/-- Line 191: a checksum of `cartridge_packed[0x00:0x40]` is stored at 0x46 —
because of the aliasing this region now holds the freshly written ciphertext. -/
def encB2 (ck : Checksum) (enc : Cipher) (machine_number eeprom_uid p : List Nat) : List Nat :=
  writeBytes (encB1 enc machine_number eeprom_uid p) 0x46
    (le16 (ck (readBytes (encB1 enc machine_number eeprom_uid p) 0x00 0x40)))

/-- Line 193: the quantity region [0x58,0x60) is overwritten with its encryption. -/
def encB3 (ck : Checksum) (enc : Cipher) (machine_number eeprom_uid p : List Nat) : List Nat :=
  writeBytes (encB2 ck enc machine_number eeprom_uid p) 0x58
    (padTrunc 8 (enc (bufKey p machine_number eeprom_uid)
      (readBytes (encB2 ck enc machine_number eeprom_uid p) 0x58 8)))

/-- Manager.encrypt (lines 180-197), ending with line 195: a checksum of
`cartridge_packed[0x58:0x60]` — now ciphertext, by the same aliasing — stored
at 0x60.  The returned buffer is the mutated argument object itself. -/
def Manager.encrypt (ck : Checksum) (enc : Cipher) (machine_number eeprom_uid p : List Nat) :
    List Nat :=
  writeBytes (encB3 ck enc machine_number eeprom_uid p) 0x60
    (le16 (ck (readBytes (encB3 ck enc machine_number eeprom_uid p) 0x58 8)))

/-- Buffer state after line 214: the header region has been decrypted in place
by slice assignment (the shared mutable buffer of decrypt). -/
def decB1 (dec : Cipher) (machine_number eeprom_uid img : List Nat) : List Nat :=
  spliceBytes img 0x00 0x40
    (dec (bufKey img machine_number eeprom_uid) (readBytes img 0x00 0x40))

/-- Buffer state after line 219: the quantity region has also been decrypted in
place.  Note that line 219 reads the quantity slice from the buffer already
mutated by line 214 (`cartridge_crypted` aliases it). -/
def decFull (dec : Cipher) (machine_number eeprom_uid img : List Nat) : List Nat :=
  spliceBytes (decB1 dec machine_number eeprom_uid img) 0x58 0x60
    (dec (bufKey img machine_number eeprom_uid)
      (readBytes (decB1 dec machine_number eeprom_uid img) 0x58 8))

/-- Manager.decrypt (lines 202-221): build the key from the image's key-fragment
slot, verify the checksum stored at 0x46 against the (still encrypted) header,
decrypt the header in place (slice assignment, line 214), verify the checksum
stored at 0x60 against the (still encrypted) quantity region read from the
mutated buffer, decrypt the quantity region in place, return the buffer. -/
def Manager.decrypt (ck : Checksum) (dec : Cipher) (machine_number eeprom_uid img : List Nat) :
    Except Err (List Nat) :=
  if ck (readBytes img 0x00 0x40) ≠ le16val (readBytes img 0x46 2) then
    .error (.integrity .cryptedContent)
  else if ck (readBytes (decB1 dec machine_number eeprom_uid img) 0x58 8) ≠
      le16val (readBytes (decB1 dec machine_number eeprom_uid img) 0x60 2) then
    .error (.integrity .cryptedQuantity)
  else
    .ok (decFull dec machine_number eeprom_uid img)

/-- Manager.encode (lines 44-47): pack then encrypt. -/
def Manager.encode (ck : Checksum) (enc : Cipher) (table : MaterialTable)
    (machine_number eeprom_uid : List Nat) (c : Cartridge) : Except Err (List Nat) :=
  (Manager.pack ck table c).map (Manager.encrypt ck enc machine_number eeprom_uid)

/-- Manager.decode (lines 52-55): decrypt then unpack. -/
def Manager.decode (ck : Checksum) (dec : Cipher) (table : MaterialTable)
    (machine_number eeprom_uid img : List Nat) : Except Err Cartridge :=
  (Manager.decrypt ck dec machine_number eeprom_uid img).bind (Manager.unpack ck table)

/-- Content of the caller's buffer after `Manager.encrypt` returns: line 181
aliases the argument and every write is in place, so the argument object ends
up holding exactly the returned image. -/
def Manager.encryptArgAfter (ck : Checksum) (enc : Cipher)
    (machine_number eeprom_uid p : List Nat) : List Nat :=
  Manager.encrypt ck enc machine_number eeprom_uid p

/-- Content of the caller's image after `Manager.decrypt` finishes (normally or
by raising): untouched if the first gate raises, header-decrypted only if the
second gate raises, fully decrypted on success.  `Manager.decode` passes the
caller's image straight to decrypt, so this is also the caller's image after a
decode call. -/
def Manager.decryptArgAfter (ck : Checksum) (dec : Cipher)
    (machine_number eeprom_uid img : List Nat) : List Nat :=
  if ck (readBytes img 0x00 0x40) ≠ le16val (readBytes img 0x46 2) then img
  else if ck (readBytes (decB1 dec machine_number eeprom_uid img) 0x58 8) ≠
      le16val (readBytes (decB1 dec machine_number eeprom_uid img) 0x60 2) then
    decB1 dec machine_number eeprom_uid img
  else
    decFull dec machine_number eeprom_uid img

/-- Plaintext header [0x00,0x40) as laid out by pack: serial number, material id
double, 20-byte lot, version, two reserved zero bytes at 0x26, the two dates,
and the initial quantity. -/
def hdrBytes (c : Cartridge) (mid : Nat) : List Nat :=
  le64 c.serial_number ++ le64 (natToF64bits mid) ++ padTrunc 20 c.manufacturing_lot ++
    le16 c.version ++ [0, 0] ++ packDate c.manufacturing_date ++ packDate c.last_use_date ++
    le64 c.initial_material_quantity

/-! Concrete collaborators and inputs used to instantiate the theorems: a
summation checksum, a self-inverse xor cipher, a byte-increment transformation,
a one-entry material table, and a sample record. -/

/-- Sum-of-bytes checksum reduced to 16 bits. -/
def ckSum : Checksum := fun bs => bs.sum % 65536

/-- Key-independent involutive cipher: xor every byte with 1. -/
def xorOne : Cipher := fun _ d => d.map (fun x => x ^^^ 1)

/-- Byte-increment transformation (used where only the forward direction of the
cipher matters). -/
def addOne : Cipher := fun _ d => d.map (fun x => (x + 1) % 256)

def wTable : MaterialTable := [("ABS", 1)]

def wMn : List Nat := [1, 2, 3, 4, 5, 6, 7, 8]

def wUid : List Nat := [9, 10, 11, 12, 13, 14, 15, 16]

def rec0 : Cartridge :=
  { serial_number := 1
    material_name := "ABS"
    manufacturing_lot := [65, 66, 67]
    version := 1
    manufacturing_date := ⟨2001, 2, 3, 4, 5, 6⟩
    last_use_date := ⟨2002, 3, 4, 5, 6, 7⟩
    initial_material_quantity := 2
    current_material_quantity := 3
    key_fragment := [1, 2, 3, 4, 5, 6, 7, 8]
    signature := [83, 73, 71, 45, 48, 48, 48, 48, 49] }

def wPacked : List Nat := packBody ckSum rec0 1

def wImg : List Nat := Manager.encrypt ckSum xorOne wMn wUid wPacked

/-- Record with a 21-byte manufacturing lot (one byte over the fixed width). -/
def recLong : Cartridge := { rec0 with manufacturing_lot := List.replicate 21 65 }

@[simp] lemma length_packDate (d : Date) : (packDate d).length = 8 := rfl

lemma length_readBytes (buf : List Nat) (off len : Nat) :
    (readBytes buf off len).length = min len (buf.length - off) := by
  simp [readBytes]

lemma getElem?_readBytes (buf : List Nat) (off len i : Nat) :
    (readBytes buf off len)[i]? = if i < len then buf[off + i]? else none := by
  rw [readBytes, List.getElem?_take, List.getElem?_drop]

lemma length_writeBytes {buf : List Nat} {off : Nat} {data : List Nat}
    (h : off + data.length ≤ buf.length) :
    (writeBytes buf off data).length = buf.length := by
  rw [writeBytes]
  simp only [List.length_append, List.length_take, List.length_drop]
  omega

lemma getElem?_writeBytes {buf : List Nat} {off : Nat} {data : List Nat}
    (h : off + data.length ≤ buf.length) (i : Nat) :
    (writeBytes buf off data)[i]? =
      if off ≤ i ∧ i < off + data.length then data[i - off]? else buf[i]? := by
  have hto : (buf.take off).length = off := by rw [List.length_take]; omega
  simp only [writeBytes, List.getElem?_append, List.length_append, hto, List.getElem?_take,
    List.getElem?_drop]
  split_ifs <;> first
    | rfl
    | omega
    | (congr 1; omega)

lemma readBytes_writeBytes_self {buf : List Nat} {off : Nat} {data : List Nat}
    (h : off + data.length ≤ buf.length) :
    readBytes (writeBytes buf off data) off data.length = data := by
  apply List.ext_getElem?
  intro i
  rw [getElem?_readBytes, getElem?_writeBytes h]
  by_cases h1 : i < data.length
  · rw [if_pos h1, if_pos (by omega)]
    congr 1
    omega
  · rw [if_neg h1]
    exact (List.getElem?_eq_none (by omega)).symm

lemma readBytes_writeBytes_disjoint {buf : List Nat} {off : Nat} {data : List Nat}
    (off' len : Nat) (h : off + data.length ≤ buf.length)
    (hdisj : off' + len ≤ off ∨ off + data.length ≤ off') :
    readBytes (writeBytes buf off data) off' len = readBytes buf off' len := by
  apply List.ext_getElem?
  intro i
  rw [getElem?_readBytes, getElem?_readBytes, getElem?_writeBytes h]
  by_cases h1 : i < len
  · rw [if_pos h1, if_pos h1, if_neg (by omega)]
  · rw [if_neg h1, if_neg h1]

lemma spliceBytes_eq_writeBytes {buf : List Nat} {lo hi : Nat} {data : List Nat}
    (h : hi = lo + data.length) :
    spliceBytes buf lo hi data = writeBytes buf lo data := by
  subst h
  rfl

lemma readBytes_split (buf : List Nat) (off a b : Nat) :
    readBytes buf off (a + b) = readBytes buf off a ++ readBytes buf (off + a) b := by
  rw [readBytes, readBytes, readBytes, List.take_add, List.drop_drop]

lemma readBytes_readBytes {buf : List Nat} {off len off' len' : Nat}
    (h : off' + len' ≤ len) :
    readBytes (readBytes buf off len) off' len' = readBytes buf (off + off') len' := by
  apply List.ext_getElem?
  intro i
  rw [getElem?_readBytes, getElem?_readBytes, getElem?_readBytes]
  split_ifs with h1 h2
  · congr 1
    omega
  · omega
  · rfl

lemma readBytes_replicate (n x off len : Nat) :
    readBytes (List.replicate n x) off len = List.replicate (min len (n - off)) x := by
  simp [readBytes, List.drop_replicate, List.take_replicate]

@[simp] lemma length_le16 (n : Nat) : (le16 n).length = 2 := rfl

@[simp] lemma length_le64 (n : Nat) : (le64 n).length = 8 := rfl

lemma le16val_le16 (n : Nat) : le16val (le16 n) = n % 65536 := by
  simp [le16, le16val, List.getD]
  omega

lemma le16val_le16_of_lt {n : Nat} (h : n < 65536) : le16val (le16 n) = n := by
  rw [le16val_le16, Nat.mod_eq_of_lt h]

lemma le64val_le64 (n : Nat) : le64val (le64 n) = n % 18446744073709551616 := by
  simp [le64, le64val, List.getD]
  omega

lemma le64val_le64_of_lt {n : Nat} (h : n < 18446744073709551616) : le64val (le64 n) = n := by
  rw [le64val_le64, Nat.mod_eq_of_lt h]

@[simp] lemma length_padTrunc (w : Nat) (data : List Nat) : (padTrunc w data).length = w := by
  simp [padTrunc]
  omega

lemma padTrunc_of_length {w : Nat} {data : List Nat} (h : data.length = w) :
    padTrunc w data = data := by
  simp [padTrunc, h, List.take_of_length_le (le_of_eq h)]

lemma takeWhile_append_of_all {l l₂ : List Nat} {p : Nat → Bool} (h : ∀ b ∈ l, p b) :
    (l ++ l₂).takeWhile p = l ++ l₂.takeWhile p := by
  induction l with
  | nil => simp
  | cons a t ih =>
    have ha : p a = true := h a (by simp)
    simp only [List.cons_append, List.takeWhile_cons, ha, if_true]
    rw [ih (fun b hb => h b (by simp [hb]))]

lemma takeWhile_replicate_zero (k : Nat) :
    (List.replicate k (0 : Nat)).takeWhile (fun b => b != 0) = [] := by
  cases k <;> simp [List.replicate, List.takeWhile]

lemma takeWhile_padTrunc {w : Nat} {data : List Nat} (hlen : data.length ≤ w)
    (hnz : ∀ b ∈ data, b ≠ 0) :
    (padTrunc w data).takeWhile (fun b => b != 0) = data := by
  rw [padTrunc, List.take_of_length_le hlen,
    takeWhile_append_of_all (fun b hb => by simpa using hnz b hb),
    takeWhile_replicate_zero, List.append_nil]

lemma log2Aux_eq_log2 : ∀ fuel n, n ≤ fuel → log2Aux fuel n = Nat.log2 n := by
  intro fuel
  induction fuel with
  | zero =>
      intro n hn
      interval_cases n
      rw [log2Aux, Nat.log2]
      norm_num
  | succ k ih =>
      intro n hn
      rw [log2Aux, Nat.log2]
      by_cases h2 : 2 ≤ n
      · rw [if_pos h2, if_pos h2, ih (n / 2) (by omega)]
      · rw [if_neg h2, if_neg h2]

lemma log2floor_eq_log2 (n : Nat) : log2floor n = Nat.log2 n :=
  log2Aux_eq_log2 n n le_rfl

lemma natToF64bits_lt {n : Nat} (h : n < 2 ^ 53) : natToF64bits n < 2 ^ 64 := by
  rw [natToF64bits, log2floor_eq_log2]
  split_ifs with h0
  · positivity
  · have hL : n.log2 ≤ 52 := by
      have := (Nat.log2_lt h0).mpr (by exact_mod_cast h)
      omega
    have hup : n * 2 ^ (52 - n.log2) < 2 ^ 53 := by
      calc n * 2 ^ (52 - n.log2) < 2 ^ (n.log2 + 1) * 2 ^ (52 - n.log2) :=
            (Nat.mul_lt_mul_right (Nat.two_pow_pos _)).mpr Nat.lt_log2_self
        _ = 2 ^ 53 := by rw [← pow_add]; congr 1; omega
    omega

lemma f64bitsToInt_natToF64bits {n : Nat} (h : n < 2 ^ 53) :
    f64bitsToInt (natToF64bits n) = (n : Int) := by
  rw [natToF64bits, log2floor_eq_log2]
  split_ifs with h0
  · subst h0
    rfl
  · have hL : n.log2 ≤ 52 := by
      have := (Nat.log2_lt h0).mpr (by exact_mod_cast h)
      omega
    have hlow : 2 ^ 52 ≤ n * 2 ^ (52 - n.log2) := by
      calc (2 : Nat) ^ 52 = 2 ^ n.log2 * 2 ^ (52 - n.log2) := by rw [← pow_add]; congr 1; omega
        _ ≤ n * 2 ^ (52 - n.log2) :=
            Nat.mul_le_mul_right _ (Nat.log2_self_le h0)
    have hup : n * 2 ^ (52 - n.log2) < 2 ^ 53 := by
      calc n * 2 ^ (52 - n.log2) < 2 ^ (n.log2 + 1) * 2 ^ (52 - n.log2) :=
            (Nat.mul_lt_mul_right (Nat.two_pow_pos _)).mpr Nat.lt_log2_self
        _ = 2 ^ 53 := by rw [← pow_add]; congr 1; omega
    set K := n * 2 ^ (52 - n.log2) with hK
    set b := (1023 + n.log2) * 2 ^ 52 + (K - 2 ^ 52) with hb
    have hsign : b / 2 ^ 63 % 2 = 0 := by omega
    have hexp : b / 2 ^ 52 % 2 ^ 11 = 1023 + n.log2 := by omega
    have hm : 2 ^ 52 + b % 2 ^ 52 = K := by omega
    have hKdiv : K / 2 ^ (52 - n.log2) = n := Nat.mul_div_cancel n (Nat.two_pow_pos _)
    rw [f64bitsToInt, if_neg (by omega), f64mag, if_neg (by omega)]
    rcases Nat.lt_or_ge n.log2 52 with h52 | h52
    · rw [if_neg (by omega), hm, show 1075 - b / 2 ^ 52 % 2 ^ 11 = 52 - n.log2 by omega, hKdiv]
    · have h52' : n.log2 = 52 := by omega
      rw [if_pos (by omega), hm,
        show b / 2 ^ 52 % 2 ^ 11 - 1075 = 0 by omega, pow_zero, Nat.mul_one, hK, h52']
      norm_num

lemma unpackDate_packDate {d : Date} (h : ValidDate d) : unpackDate (packDate d) = d := by
  obtain ⟨h1, h2, h3, h4, h5, h6, h7, h8, h9⟩ := h
  cases d
  simp only [packDate, unpackDate, le16, readBytes, le16val, List.cons_append, List.nil_append,
    List.drop, List.take, List.getD, List.getElem?_cons_zero, List.getElem?_cons_succ,
    Option.getD_some, Date.mk.injEq]
  simp_all
  constructor
  · omega
  constructor
  · omega
  constructor
  · omega
  constructor
  · omega
  omega

@[simp] lemma length_hdrBytes (c : Cartridge) (mid : Nat) : (hdrBytes c mid).length = 64 := by
  simp [hdrBytes, length_padTrunc, length_packDate, length_le64, length_le16]

lemma readBytes_writeBytes_self' {buf : List Nat} {off : Nat} {data : List Nat} {len : Nat}
    (h : off + data.length ≤ buf.length) (hlen : len = data.length) :
    readBytes (writeBytes buf off data) off len = data := by
  subst hlen
  exact readBytes_writeBytes_self h

@[simp] lemma length_packE1 (c : Cartridge) : (packE1 c).length = 113 := by
  rw [packE1, length_writeBytes (by simp)]
  simp

@[simp] lemma length_packE2 (c : Cartridge) (mid : Nat) : (packE2 c mid).length = 113 := by
  rw [packE2, length_writeBytes (by simp)]
  simp

@[simp] lemma length_packE3 (c : Cartridge) (mid : Nat) : (packE3 c mid).length = 113 := by
  rw [packE3, length_writeBytes (by simp)]
  simp

@[simp] lemma length_packE4 (c : Cartridge) (mid : Nat) : (packE4 c mid).length = 113 := by
  rw [packE4, length_writeBytes (by simp)]
  simp

@[simp] lemma length_packE5 (c : Cartridge) (mid : Nat) : (packE5 c mid).length = 113 := by
  rw [packE5, length_writeBytes (by simp)]
  simp

@[simp] lemma length_packE6 (c : Cartridge) (mid : Nat) : (packE6 c mid).length = 113 := by
  rw [packE6, length_writeBytes (by simp)]
  simp

@[simp] lemma length_packE7 (c : Cartridge) (mid : Nat) : (packE7 c mid).length = 113 := by
  rw [packE7, length_writeBytes (by simp)]
  simp

@[simp] lemma length_packE8 (ck : Checksum) (c : Cartridge) (mid : Nat) :
    (packE8 ck c mid).length = 113 := by
  rw [packE8, length_writeBytes (by simp)]
  simp

@[simp] lemma length_packE9 (ck : Checksum) (c : Cartridge) (mid : Nat) :
    (packE9 ck c mid).length = 113 := by
  rw [packE9, length_writeBytes (by simp)]
  simp

@[simp] lemma length_packE10 (ck : Checksum) (c : Cartridge) (mid : Nat) :
    (packE10 ck c mid).length = 113 := by
  rw [packE10, length_writeBytes (by simp)]
  simp

@[simp] lemma length_packE11 (ck : Checksum) (c : Cartridge) (mid : Nat) :
    (packE11 ck c mid).length = 113 := by
  rw [packE11, length_writeBytes (by simp)]
  simp

@[simp] lemma length_packE12 (ck : Checksum) (c : Cartridge) (mid : Nat) :
    (packE12 ck c mid).length = 113 := by
  rw [packE12, length_writeBytes (by simp)]
  simp

@[simp] lemma length_packBody (ck : Checksum) (c : Cartridge) (mid : Nat) :
    (packBody ck c mid).length = 113 := by
  rw [packBody, length_writeBytes (by simp)]
  simp

lemma packE7_read_serial (c : Cartridge) (mid : Nat) :
    readBytes (packE7 c mid) 0 8 = le64 c.serial_number := by
  simp [packE7, readBytes_writeBytes_disjoint]
  simp [packE6, readBytes_writeBytes_disjoint]
  simp [packE5, readBytes_writeBytes_disjoint]
  simp [packE4, readBytes_writeBytes_disjoint]
  simp [packE3, readBytes_writeBytes_disjoint]
  simp [packE2, readBytes_writeBytes_disjoint]
  simp [packE1, readBytes_writeBytes_self']

lemma packE7_read_mid (c : Cartridge) (mid : Nat) :
    readBytes (packE7 c mid) 8 8 = le64 (natToF64bits mid) := by
  simp [packE7, readBytes_writeBytes_disjoint]
  simp [packE6, readBytes_writeBytes_disjoint]
  simp [packE5, readBytes_writeBytes_disjoint]
  simp [packE4, readBytes_writeBytes_disjoint]
  simp [packE3, readBytes_writeBytes_disjoint]
  simp [packE2, readBytes_writeBytes_self']

lemma packE7_read_lot (c : Cartridge) (mid : Nat) :
    readBytes (packE7 c mid) 16 20 = padTrunc 20 c.manufacturing_lot := by
  simp [packE7, readBytes_writeBytes_disjoint]
  simp [packE6, readBytes_writeBytes_disjoint]
  simp [packE5, readBytes_writeBytes_disjoint]
  simp [packE4, readBytes_writeBytes_disjoint]
  simp [packE3, readBytes_writeBytes_self']

lemma packE7_read_version (c : Cartridge) (mid : Nat) :
    readBytes (packE7 c mid) 36 2 = le16 c.version := by
  simp [packE7, readBytes_writeBytes_disjoint]
  simp [packE6, readBytes_writeBytes_disjoint]
  simp [packE5, readBytes_writeBytes_disjoint]
  simp [packE4, readBytes_writeBytes_self']

lemma packE7_read_gap (c : Cartridge) (mid : Nat) :
    readBytes (packE7 c mid) 38 2 = [0, 0] := by
  simp [packE7, readBytes_writeBytes_disjoint]
  simp [packE6, readBytes_writeBytes_disjoint]
  simp [packE5, readBytes_writeBytes_disjoint]
  simp [packE4, readBytes_writeBytes_disjoint]
  simp [packE3, readBytes_writeBytes_disjoint]
  simp [packE2, readBytes_writeBytes_disjoint]
  simp [packE1, readBytes_writeBytes_disjoint]
  decide

lemma packE7_read_mfgDate (c : Cartridge) (mid : Nat) :
    readBytes (packE7 c mid) 40 8 = packDate c.manufacturing_date := by
  simp [packE7, readBytes_writeBytes_disjoint]
  simp [packE6, readBytes_writeBytes_disjoint]
  simp [packE5, readBytes_writeBytes_self']

lemma packE7_read_useDate (c : Cartridge) (mid : Nat) :
    readBytes (packE7 c mid) 48 8 = packDate c.last_use_date := by
  simp [packE7, readBytes_writeBytes_disjoint]
  simp [packE6, readBytes_writeBytes_self']

lemma packE7_read_initQty (c : Cartridge) (mid : Nat) :
    readBytes (packE7 c mid) 56 8 = le64 c.initial_material_quantity := by
  simp [packE7, readBytes_writeBytes_self']

/-- The first 64 bytes of the buffer at the moment the plaintext-header checksum
is computed (line 92) are exactly the plaintext header. -/
lemma packE7_read_hdr (c : Cartridge) (mid : Nat) :
    readBytes (packE7 c mid) 0 64 = hdrBytes c mid := by
  have s1 : readBytes (packE7 c mid) 0 64 =
      readBytes (packE7 c mid) 0 8 ++ readBytes (packE7 c mid) 8 56 := by
    simpa using readBytes_split (packE7 c mid) 0 8 56
  have s2 : readBytes (packE7 c mid) 8 56 =
      readBytes (packE7 c mid) 8 8 ++ readBytes (packE7 c mid) 16 48 := by
    simpa using readBytes_split (packE7 c mid) 8 8 48
  have s3 : readBytes (packE7 c mid) 16 48 =
      readBytes (packE7 c mid) 16 20 ++ readBytes (packE7 c mid) 36 28 := by
    simpa using readBytes_split (packE7 c mid) 16 20 28
  have s4 : readBytes (packE7 c mid) 36 28 =
      readBytes (packE7 c mid) 36 2 ++ readBytes (packE7 c mid) 38 26 := by
    simpa using readBytes_split (packE7 c mid) 36 2 26
  have s5 : readBytes (packE7 c mid) 38 26 =
      readBytes (packE7 c mid) 38 2 ++ readBytes (packE7 c mid) 40 24 := by
    simpa using readBytes_split (packE7 c mid) 38 2 24
  have s6 : readBytes (packE7 c mid) 40 24 =
      readBytes (packE7 c mid) 40 8 ++ readBytes (packE7 c mid) 48 16 := by
    simpa using readBytes_split (packE7 c mid) 40 8 16
  have s7 : readBytes (packE7 c mid) 48 16 =
      readBytes (packE7 c mid) 48 8 ++ readBytes (packE7 c mid) 56 8 := by
    simpa using readBytes_split (packE7 c mid) 48 8 8
  rw [s1, s2, s3, s4, s5, s6, s7, packE7_read_serial, packE7_read_mid, packE7_read_lot,
    packE7_read_version, packE7_read_gap, packE7_read_mfgDate, packE7_read_useDate,
    packE7_read_initQty, hdrBytes]
  simp [List.append_assoc]

/-- Region facts of the packed buffer needed downstream. -/
lemma packBody_read_hdr (ck : Checksum) (c : Cartridge) (mid : Nat) :
    readBytes (packBody ck c mid) 0 64 = hdrBytes c mid := by
  simp [packBody, readBytes_writeBytes_disjoint]
  simp [packE12, readBytes_writeBytes_disjoint]
  simp [packE11, readBytes_writeBytes_disjoint]
  simp [packE10, readBytes_writeBytes_disjoint]
  simp [packE9, readBytes_writeBytes_disjoint]
  simp [packE8, readBytes_writeBytes_disjoint]
  exact packE7_read_hdr c mid

lemma packBody_read_plainCk (ck : Checksum) (c : Cartridge) (mid : Nat) :
    readBytes (packBody ck c mid) 64 2 = le16 (ck (hdrBytes c mid)) := by
  simp [packBody, readBytes_writeBytes_disjoint]
  simp [packE12, readBytes_writeBytes_disjoint]
  simp [packE11, readBytes_writeBytes_disjoint]
  simp [packE10, readBytes_writeBytes_disjoint]
  simp [packE9, readBytes_writeBytes_disjoint]
  simp [packE8, readBytes_writeBytes_self']
  rw [packE7_read_hdr]

lemma packBody_read_kf (ck : Checksum) (c : Cartridge) (mid : Nat) :
    readBytes (packBody ck c mid) 72 8 = padTrunc 8 c.key_fragment := by
  simp [packBody, readBytes_writeBytes_disjoint]
  simp [packE12, readBytes_writeBytes_disjoint]
  simp [packE11, readBytes_writeBytes_disjoint]
  simp [packE10, readBytes_writeBytes_disjoint]
  simp [packE9, readBytes_writeBytes_self']

lemma packBody_read_curQty (ck : Checksum) (c : Cartridge) (mid : Nat) :
    readBytes (packBody ck c mid) 88 8 = le64 c.current_material_quantity := by
  simp [packBody, readBytes_writeBytes_disjoint]
  simp [packE12, readBytes_writeBytes_disjoint]
  simp [packE11, readBytes_writeBytes_self']

lemma packBody_read_qtyCk (ck : Checksum) (c : Cartridge) (mid : Nat) :
    readBytes (packBody ck c mid) 98 2 = le16 (ck (le64 c.current_material_quantity)) := by
  simp [packBody, readBytes_writeBytes_disjoint]
  simp [packE12, readBytes_writeBytes_self']
  rw [packE11]
  rw [readBytes_writeBytes_self' (by simp) (by simp)]

lemma packBody_read_sig (ck : Checksum) (c : Cartridge) (mid : Nat) :
    readBytes (packBody ck c mid) 104 9 = padTrunc 9 c.signature := by
  simp [packBody, readBytes_writeBytes_self']

lemma readBytes_append_left {A B : List Nat} (off len : Nat) (h : off + len ≤ A.length) :
    readBytes (A ++ B) off len = readBytes A off len := by
  apply List.ext_getElem?
  intro i
  rw [getElem?_readBytes, getElem?_readBytes]
  by_cases h1 : i < len
  · rw [if_pos h1, if_pos h1, List.getElem?_append_left (by omega)]
  · rw [if_neg h1, if_neg h1]

lemma readBytes_append_right {A B : List Nat} (off len : Nat) (h : A.length ≤ off) :
    readBytes (A ++ B) off len = readBytes B (off - A.length) len := by
  apply List.ext_getElem?
  intro i
  rw [getElem?_readBytes, getElem?_readBytes]
  by_cases h1 : i < len
  · rw [if_pos h1, if_pos h1, List.getElem?_append_right (by omega)]
    congr 1
    omega
  · rw [if_neg h1, if_neg h1]

lemma readBytes_all {A : List Nat} {len : Nat} (h : len = A.length) :
    readBytes A 0 len = A := by
  subst h
  simp [readBytes, List.take_of_length_le]

/-- Reading entirely inside a freshly written region returns the corresponding
slice of the written data. -/
lemma readBytes_writeBytes_within {buf : List Nat} {off : Nat} {data : List Nat}
    (off' len : Nat) (h : off + data.length ≤ buf.length)
    (h1 : off ≤ off') (h2 : off' + len ≤ off + data.length) :
    readBytes (writeBytes buf off data) off' len = readBytes data (off' - off) len := by
  apply List.ext_getElem?
  intro i
  rw [getElem?_readBytes, getElem?_readBytes, getElem?_writeBytes h]
  by_cases hi : i < len
  · rw [if_pos hi, if_pos hi, if_pos (by omega)]
    congr 1
    omega
  · rw [if_neg hi, if_neg hi]

section EncryptLemmas

variable {ck : Checksum} {enc : Cipher} {machine_number eeprom_uid p : List Nat}

lemma length_encB1 (hp : p.length = 113) :
    (encB1 enc machine_number eeprom_uid p).length = 113 := by
  rw [encB1, length_writeBytes (by simp [hp])]
  exact hp

lemma length_encB2 (hp : p.length = 113) :
    (encB2 ck enc machine_number eeprom_uid p).length = 113 := by
  rw [encB2, length_writeBytes (by simp [length_encB1 hp])]
  exact length_encB1 hp

lemma length_encB3 (hp : p.length = 113) :
    (encB3 ck enc machine_number eeprom_uid p).length = 113 := by
  rw [encB3, length_writeBytes (by simp [length_encB2 hp])]
  exact length_encB2 hp

lemma length_encrypt (hp : p.length = 113) :
    (Manager.encrypt ck enc machine_number eeprom_uid p).length = 113 := by
  rw [Manager.encrypt, length_writeBytes (by simp [length_encB3 hp])]
  exact length_encB3 hp

/-- Bytes of the image outside the four regions written by encrypt — the header
[0x00,0x40), the token slots 0x46..0x48 and 0x60..0x62, and the quantity region
[0x58,0x60) — are the bytes of the packed input. -/
lemma encrypt_read_untouched (off len : Nat) (hp : p.length = 113)
    (h1 : 64 ≤ off)
    (h2 : off + len ≤ 70 ∨ (72 ≤ off ∧ off + len ≤ 88) ∨ 98 ≤ off) :
    readBytes (Manager.encrypt ck enc machine_number eeprom_uid p) off len =
      readBytes p off len := by
  have s4 : readBytes (Manager.encrypt ck enc machine_number eeprom_uid p) off len =
      readBytes (encB3 ck enc machine_number eeprom_uid p) off len := by
    rw [Manager.encrypt]
    exact readBytes_writeBytes_disjoint off len (by simp [length_encB3 hp])
      (by simp only [length_le16]; omega)
  have s3 : readBytes (encB3 ck enc machine_number eeprom_uid p) off len =
      readBytes (encB2 ck enc machine_number eeprom_uid p) off len := by
    rw [encB3]
    exact readBytes_writeBytes_disjoint off len (by simp [length_encB2 hp])
      (by simp only [length_padTrunc]; omega)
  have s2 : readBytes (encB2 ck enc machine_number eeprom_uid p) off len =
      readBytes (encB1 enc machine_number eeprom_uid p) off len := by
    rw [encB2]
    exact readBytes_writeBytes_disjoint off len (by simp [length_encB1 hp])
      (by simp only [length_le16]; omega)
  have s1 : readBytes (encB1 enc machine_number eeprom_uid p) off len =
      readBytes p off len := by
    rw [encB1]
    exact readBytes_writeBytes_disjoint off len (by simp [hp])
      (by simp only [length_padTrunc]; omega)
  rw [s4, s3, s2, s1]

/-- The key built by decrypt from the image equals the key built by encrypt from
the packed buffer: the key-fragment slot is outside every encrypted region. -/
lemma encrypt_bufKey (hp : p.length = 113) :
    bufKey (Manager.encrypt ck enc machine_number eeprom_uid p) machine_number eeprom_uid =
      bufKey p machine_number eeprom_uid := by
  rw [bufKey, bufKey, encrypt_read_untouched 72 8 hp (by norm_num) (by norm_num)]

lemma encB1_read_hdr (hp : p.length = 113)
    (hel : ∀ k d, (enc k d).length = d.length) :
    readBytes (encB1 enc machine_number eeprom_uid p) 0 64 =
      enc (bufKey p machine_number eeprom_uid) (readBytes p 0 64) := by
  have hC : (enc (bufKey p machine_number eeprom_uid) (readBytes p 0 64)).length = 64 := by
    rw [hel, length_readBytes, hp]
    omega
  have s1 : readBytes (encB1 enc machine_number eeprom_uid p) 0 64 =
      padTrunc 64 (enc (bufKey p machine_number eeprom_uid) (readBytes p 0 64)) := by
    rw [encB1]
    exact readBytes_writeBytes_self' (by simp [hp]) (by simp)
  rw [s1, padTrunc_of_length hC]

/-- Final header region of the encrypted image: the ciphertext of the header. -/
lemma encrypt_read_hdr (hp : p.length = 113)
    (hel : ∀ k d, (enc k d).length = d.length) :
    readBytes (Manager.encrypt ck enc machine_number eeprom_uid p) 0 64 =
      enc (bufKey p machine_number eeprom_uid) (readBytes p 0 64) := by
  have s4 : readBytes (Manager.encrypt ck enc machine_number eeprom_uid p) 0 64 =
      readBytes (encB3 ck enc machine_number eeprom_uid p) 0 64 := by
    rw [Manager.encrypt]
    exact readBytes_writeBytes_disjoint 0 64 (by simp [length_encB3 hp]) (by norm_num)
  have s3 : readBytes (encB3 ck enc machine_number eeprom_uid p) 0 64 =
      readBytes (encB2 ck enc machine_number eeprom_uid p) 0 64 := by
    rw [encB3]
    exact readBytes_writeBytes_disjoint 0 64 (by simp [length_encB2 hp])
      (by simp only [length_padTrunc]; omega)
  have s2 : readBytes (encB2 ck enc machine_number eeprom_uid p) 0 64 =
      readBytes (encB1 enc machine_number eeprom_uid p) 0 64 := by
    rw [encB2]
    exact readBytes_writeBytes_disjoint 0 64 (by simp [length_encB1 hp])
      (by simp only [length_le16]; omega)
  rw [s4, s3, s2, encB1_read_hdr hp hel]

/-- The 16-bit token stored at 0x46 is the checksum of the header ciphertext:
by the aliasing of line 181, line 191 reads the header after line 189 replaced
it with ciphertext. -/
lemma encrypt_read_tok46 (hp : p.length = 113)
    (hel : ∀ k d, (enc k d).length = d.length) :
    readBytes (Manager.encrypt ck enc machine_number eeprom_uid p) 70 2 =
      le16 (ck (enc (bufKey p machine_number eeprom_uid) (readBytes p 0 64))) := by
  have s4 : readBytes (Manager.encrypt ck enc machine_number eeprom_uid p) 70 2 =
      readBytes (encB3 ck enc machine_number eeprom_uid p) 70 2 := by
    rw [Manager.encrypt]
    exact readBytes_writeBytes_disjoint 70 2 (by simp [length_encB3 hp]) (by norm_num)
  have s3 : readBytes (encB3 ck enc machine_number eeprom_uid p) 70 2 =
      readBytes (encB2 ck enc machine_number eeprom_uid p) 70 2 := by
    rw [encB3]
    exact readBytes_writeBytes_disjoint 70 2 (by simp [length_encB2 hp])
      (by simp only [length_padTrunc]; omega)
  have s2 : readBytes (encB2 ck enc machine_number eeprom_uid p) 70 2 =
      le16 (ck (readBytes (encB1 enc machine_number eeprom_uid p) 0 64)) := by
    rw [encB2]
    exact readBytes_writeBytes_self' (by simp [length_encB1 hp]) (by simp)
  rw [s4, s3, s2, encB1_read_hdr hp hel]

lemma encB2_read_qty (hp : p.length = 113) :
    readBytes (encB2 ck enc machine_number eeprom_uid p) 88 8 = readBytes p 88 8 := by
  have s2 : readBytes (encB2 ck enc machine_number eeprom_uid p) 88 8 =
      readBytes (encB1 enc machine_number eeprom_uid p) 88 8 := by
    rw [encB2]
    exact readBytes_writeBytes_disjoint 88 8 (by simp [length_encB1 hp])
      (by simp only [length_le16]; omega)
  have s1 : readBytes (encB1 enc machine_number eeprom_uid p) 88 8 = readBytes p 88 8 := by
    rw [encB1]
    exact readBytes_writeBytes_disjoint 88 8 (by simp [hp])
      (by simp only [length_padTrunc]; omega)
  rw [s2, s1]

lemma encB3_read_qty (hp : p.length = 113)
    (hel : ∀ k d, (enc k d).length = d.length) :
    readBytes (encB3 ck enc machine_number eeprom_uid p) 88 8 =
      enc (bufKey p machine_number eeprom_uid) (readBytes p 88 8) := by
  have hC : (enc (bufKey p machine_number eeprom_uid) (readBytes p 88 8)).length = 8 := by
    rw [hel, length_readBytes, hp]
    omega
  have s3 : readBytes (encB3 ck enc machine_number eeprom_uid p) 88 8 =
      padTrunc 8 (enc (bufKey p machine_number eeprom_uid)
        (readBytes (encB2 ck enc machine_number eeprom_uid p) 88 8)) := by
    rw [encB3]
    exact readBytes_writeBytes_self' (by simp [length_encB2 hp]) (by simp)
  rw [s3, encB2_read_qty hp, padTrunc_of_length hC]

/-- Final quantity region of the encrypted image: the ciphertext of the
quantity bytes. -/
lemma encrypt_read_qty (hp : p.length = 113)
    (hel : ∀ k d, (enc k d).length = d.length) :
    readBytes (Manager.encrypt ck enc machine_number eeprom_uid p) 88 8 =
      enc (bufKey p machine_number eeprom_uid) (readBytes p 88 8) := by
  have s4 : readBytes (Manager.encrypt ck enc machine_number eeprom_uid p) 88 8 =
      readBytes (encB3 ck enc machine_number eeprom_uid p) 88 8 := by
    rw [Manager.encrypt]
    exact readBytes_writeBytes_disjoint 88 8 (by simp [length_encB3 hp])
      (by simp only [length_le16]; omega)
  rw [s4, encB3_read_qty hp hel]

/-- The 16-bit token stored at 0x60 is the checksum of the quantity ciphertext:
line 195 reads the quantity region after line 193 replaced it. -/
lemma encrypt_read_tok60 (hp : p.length = 113)
    (hel : ∀ k d, (enc k d).length = d.length) :
    readBytes (Manager.encrypt ck enc machine_number eeprom_uid p) 96 2 =
      le16 (ck (enc (bufKey p machine_number eeprom_uid) (readBytes p 88 8))) := by
  have s4 : readBytes (Manager.encrypt ck enc machine_number eeprom_uid p) 96 2 =
      le16 (ck (readBytes (encB3 ck enc machine_number eeprom_uid p) 88 8)) := by
    rw [Manager.encrypt]
    exact readBytes_writeBytes_self' (by simp [length_encB3 hp]) (by simp)
  rw [s4, encB3_read_qty hp hel]

end EncryptLemmas

section DecryptLemmas

variable {ck : Checksum} {dec : Cipher} {machine_number eeprom_uid img : List Nat}

lemma decrypt_gate1_fail
    (hg : ck (readBytes img 0 64) ≠ le16val (readBytes img 70 2)) :
    Manager.decrypt ck dec machine_number eeprom_uid img =
      .error (.integrity .cryptedContent) := by
  rw [Manager.decrypt, if_pos hg]

lemma decrypt_gate2_fail
    (hg1 : ck (readBytes img 0 64) = le16val (readBytes img 70 2))
    (hg2 : ck (readBytes (decB1 dec machine_number eeprom_uid img) 88 8) ≠
      le16val (readBytes (decB1 dec machine_number eeprom_uid img) 96 2)) :
    Manager.decrypt ck dec machine_number eeprom_uid img =
      .error (.integrity .cryptedQuantity) := by
  rw [Manager.decrypt, if_neg (not_not_intro hg1), if_pos hg2]

lemma decrypt_ok
    (hg1 : ck (readBytes img 0 64) = le16val (readBytes img 70 2))
    (hg2 : ck (readBytes (decB1 dec machine_number eeprom_uid img) 88 8) =
      le16val (readBytes (decB1 dec machine_number eeprom_uid img) 96 2)) :
    Manager.decrypt ck dec machine_number eeprom_uid img =
      .ok (decFull dec machine_number eeprom_uid img) := by
  rw [Manager.decrypt, if_neg (not_not_intro hg1), if_neg (not_not_intro hg2)]

lemma decrypt_ok_inv {out : List Nat}
    (h : Manager.decrypt ck dec machine_number eeprom_uid img = .ok out) :
    ck (readBytes img 0 64) = le16val (readBytes img 70 2) ∧
      ck (readBytes (decB1 dec machine_number eeprom_uid img) 88 8) =
        le16val (readBytes (decB1 dec machine_number eeprom_uid img) 96 2) ∧
      out = decFull dec machine_number eeprom_uid img := by
  rw [Manager.decrypt] at h
  split_ifs at h with h1 h2
  · exact ⟨not_not.mp h1, not_not.mp h2, (Except.ok.injEq _ _).mp h |>.symm⟩

end DecryptLemmas

lemma readBytes_cons_of_pos {a : Nat} {A : List Nat} (off len : Nat) (h : 1 ≤ off) :
    readBytes (a :: A) off len = readBytes A (off - 1) len := by
  cases off with
  | zero => omega
  | succ k => simp [readBytes, List.drop_succ_cons]

section HdrBytesLemmas

variable {c : Cartridge} {mid : Nat}

lemma hdrBytes_read_serial : readBytes (hdrBytes c mid) 0 8 = le64 c.serial_number := by
  simp [hdrBytes, readBytes_append_left, readBytes_all]

lemma hdrBytes_read_mid : readBytes (hdrBytes c mid) 8 8 = le64 (natToF64bits mid) := by
  simp [hdrBytes, readBytes_append_left, readBytes_append_right, readBytes_all]

lemma hdrBytes_read_lot : readBytes (hdrBytes c mid) 16 20 = padTrunc 20 c.manufacturing_lot := by
  simp [hdrBytes, readBytes_append_left, readBytes_append_right, readBytes_all]

lemma hdrBytes_read_version : readBytes (hdrBytes c mid) 36 2 = le16 c.version := by
  simp [hdrBytes, readBytes_append_left, readBytes_append_right, readBytes_all]

lemma hdrBytes_read_mfgDate :
    readBytes (hdrBytes c mid) 40 8 = packDate c.manufacturing_date := by
  simp [hdrBytes, readBytes_append_left, readBytes_append_right, readBytes_all,
    readBytes_cons_of_pos]

lemma hdrBytes_read_useDate :
    readBytes (hdrBytes c mid) 48 8 = packDate c.last_use_date := by
  simp [hdrBytes, readBytes_append_left, readBytes_append_right, readBytes_all,
    readBytes_cons_of_pos]

lemma hdrBytes_read_initQty :
    readBytes (hdrBytes c mid) 56 8 = le64 c.initial_material_quantity := by
  simp [hdrBytes, readBytes_append_left, readBytes_append_right, readBytes_all,
    readBytes_cons_of_pos]

end HdrBytesLemmas

section DecBufLemmas

variable {ck : Checksum} {dec : Cipher} {machine_number eeprom_uid img : List Nat}

lemma decB1_eq_write (himg : img.length = 113)
    (hdl : ∀ k d, (dec k d).length = d.length) :
    decB1 dec machine_number eeprom_uid img =
      writeBytes img 0
        (dec (bufKey img machine_number eeprom_uid) (readBytes img 0 64)) := by
  rw [decB1]
  exact spliceBytes_eq_writeBytes (by rw [hdl, length_readBytes, himg]; omega)

lemma length_decB1 (himg : img.length = 113)
    (hdl : ∀ k d, (dec k d).length = d.length) :
    (decB1 dec machine_number eeprom_uid img).length = 113 := by
  rw [decB1_eq_write himg hdl,
    length_writeBytes (by rw [hdl, length_readBytes, himg]; omega)]
  exact himg

lemma decB1_read_high (off len : Nat) (himg : img.length = 113)
    (hdl : ∀ k d, (dec k d).length = d.length) (h : 64 ≤ off) :
    readBytes (decB1 dec machine_number eeprom_uid img) off len = readBytes img off len := by
  rw [decB1_eq_write himg hdl]
  exact readBytes_writeBytes_disjoint off len
    (by rw [hdl, length_readBytes, himg]; omega)
    (by rw [hdl, length_readBytes, himg]; omega)

lemma decB1_read_hdr (himg : img.length = 113)
    (hdl : ∀ k d, (dec k d).length = d.length) :
    readBytes (decB1 dec machine_number eeprom_uid img) 0 64 =
      dec (bufKey img machine_number eeprom_uid) (readBytes img 0 64) := by
  rw [decB1_eq_write himg hdl]
  exact readBytes_writeBytes_self'
    (by rw [hdl, length_readBytes, himg]; omega)
    (by rw [hdl, length_readBytes, himg]; omega)

lemma decFull_eq_write (himg : img.length = 113)
    (hdl : ∀ k d, (dec k d).length = d.length) :
    decFull dec machine_number eeprom_uid img =
      writeBytes (decB1 dec machine_number eeprom_uid img) 88
        (dec (bufKey img machine_number eeprom_uid)
          (readBytes (decB1 dec machine_number eeprom_uid img) 88 8)) := by
  rw [decFull]
  exact spliceBytes_eq_writeBytes
    (by rw [hdl, length_readBytes, length_decB1 himg hdl]; omega)

lemma length_decFull (himg : img.length = 113)
    (hdl : ∀ k d, (dec k d).length = d.length) :
    (decFull dec machine_number eeprom_uid img).length = 113 := by
  rw [decFull_eq_write himg hdl,
    length_writeBytes (by rw [hdl, length_readBytes, length_decB1 himg hdl]; omega)]
  exact length_decB1 himg hdl

lemma decFull_read_within_hdr (off len : Nat) (himg : img.length = 113)
    (hdl : ∀ k d, (dec k d).length = d.length) (h : off + len ≤ 64) :
    readBytes (decFull dec machine_number eeprom_uid img) off len =
      readBytes (dec (bufKey img machine_number eeprom_uid) (readBytes img 0 64)) off len := by
  have s2 : readBytes (decFull dec machine_number eeprom_uid img) off len =
      readBytes (decB1 dec machine_number eeprom_uid img) off len := by
    rw [decFull_eq_write himg hdl]
    exact readBytes_writeBytes_disjoint off len
      (by rw [hdl, length_readBytes, length_decB1 himg hdl]; omega)
      (by rw [hdl, length_readBytes, length_decB1 himg hdl]; omega)
  have s1 : readBytes (decB1 dec machine_number eeprom_uid img) off len =
      readBytes (dec (bufKey img machine_number eeprom_uid) (readBytes img 0 64))
        (off - 0) len := by
    rw [decB1_eq_write himg hdl]
    exact readBytes_writeBytes_within off len
      (by rw [hdl, length_readBytes, himg]; omega) (by omega)
      (by rw [hdl, length_readBytes, himg]; omega)
  rw [s2, s1, Nat.sub_zero]

lemma decFull_read_hdr (himg : img.length = 113)
    (hdl : ∀ k d, (dec k d).length = d.length) :
    readBytes (decFull dec machine_number eeprom_uid img) 0 64 =
      dec (bufKey img machine_number eeprom_uid) (readBytes img 0 64) := by
  have s2 : readBytes (decFull dec machine_number eeprom_uid img) 0 64 =
      readBytes (decB1 dec machine_number eeprom_uid img) 0 64 := by
    rw [decFull_eq_write himg hdl]
    exact readBytes_writeBytes_disjoint 0 64
      (by rw [hdl, length_readBytes, length_decB1 himg hdl]; omega) (by omega)
  rw [s2, decB1_read_hdr himg hdl]

lemma decFull_read_qty (himg : img.length = 113)
    (hdl : ∀ k d, (dec k d).length = d.length) :
    readBytes (decFull dec machine_number eeprom_uid img) 88 8 =
      dec (bufKey img machine_number eeprom_uid) (readBytes img 88 8) := by
  rw [decFull_eq_write himg hdl]
  rw [readBytes_writeBytes_self'
    (by rw [hdl, length_readBytes, length_decB1 himg hdl]; omega)
    (by rw [hdl, length_readBytes, length_decB1 himg hdl]; omega)]
  rw [decB1_read_high 88 8 himg hdl (by omega)]

lemma decFull_read_untouched (off len : Nat) (himg : img.length = 113)
    (hdl : ∀ k d, (dec k d).length = d.length)
    (h1 : 64 ≤ off) (h2 : off + len ≤ 88 ∨ 96 ≤ off) :
    readBytes (decFull dec machine_number eeprom_uid img) off len =
      readBytes img off len := by
  have s2 : readBytes (decFull dec machine_number eeprom_uid img) off len =
      readBytes (decB1 dec machine_number eeprom_uid img) off len := by
    rw [decFull_eq_write himg hdl]
    exact readBytes_writeBytes_disjoint off len
      (by rw [hdl, length_readBytes, length_decB1 himg hdl]; omega)
      (by rw [hdl, length_readBytes, length_decB1 himg hdl]; omega)
  rw [s2, decB1_read_high off len himg hdl h1]

end DecBufLemmas

section UnpackLemmas

variable {ck : Checksum} {table : MaterialTable} {p : List Nat}

lemma unpack_ok {name : String}
    (hg3 : ck (readBytes p 0 64) = le16val (readBytes p 64 2))
    (hg4 : ck (readBytes p 88 8) = le16val (readBytes p 98 2))
    (hname : get_name_from_id table (f64bitsToInt (le64val (readBytes p 8 8))) = some name) :
    Manager.unpack ck table p =
      .ok { serial_number := le64val (readBytes p 0 8)
            material_name := name
            manufacturing_lot := (readBytes p 16 20).takeWhile (fun b => b != 0)
            version := le16val (readBytes p 36 2)
            manufacturing_date := unpackDate (readBytes p 40 8)
            last_use_date := unpackDate (readBytes p 48 8)
            initial_material_quantity := le64val (readBytes p 56 8)
            current_material_quantity := le64val (readBytes p 88 8)
            key_fragment := readBytes p 72 8
            signature := readBytes p 104 9 } := by
  rw [Manager.unpack, if_neg (not_not_intro hg3), if_neg (not_not_intro hg4), hname]

lemma unpack_ok_inv {c : Cartridge}
    (h : Manager.unpack ck table p = .ok c) :
    ck (readBytes p 0 64) = le16val (readBytes p 64 2) ∧
      ck (readBytes p 88 8) = le16val (readBytes p 98 2) := by
  rw [Manager.unpack] at h
  split_ifs at h with h1 h2
  exact ⟨not_not.mp h1, not_not.mp h2⟩

lemma unpack_gate3_fail
    (hg : ck (readBytes p 0 64) ≠ le16val (readBytes p 64 2)) :
    Manager.unpack ck table p = .error (.integrity .plainContent) := by
  rw [Manager.unpack, if_pos hg]

lemma unpack_unknown_material
    (hg3 : ck (readBytes p 0 64) = le16val (readBytes p 64 2))
    (hg4 : ck (readBytes p 88 8) = le16val (readBytes p 98 2))
    (hname : get_name_from_id table (f64bitsToInt (le64val (readBytes p 8 8))) = none) :
    Manager.unpack ck table p =
      .error (.unknownMaterialId (f64bitsToInt (le64val (readBytes p 8 8)))) := by
  rw [Manager.unpack, if_neg (not_not_intro hg3), if_neg (not_not_intro hg4), hname]

end UnpackLemmas

lemma getD_lt_256 {l : List Nat} (hb : ∀ b ∈ l, b < 256) (i : Nat) : l.getD i 0 < 256 := by
  rw [List.getD_eq_getElem?_getD]
  cases h : l[i]? with
  | none => simp
  | some x => simpa using hb x (List.getElem?_mem h)

lemma build_key_congr {kf kf' mn mn' uid uid' : List Nat}
    (hkf : ∀ i ∈ ([0, 1, 2, 3, 6, 7] : List Nat), kf.getD i 0 = kf'.getD i 0)
    (hmn : ∀ i ∈ ([0, 1, 2, 3, 6, 7] : List Nat), mn.getD i 0 = mn'.getD i 0)
    (huid : ∀ i ∈ ([1, 2, 5, 6] : List Nat), uid.getD i 0 = uid'.getD i 0) :
    Manager.build_key kf mn uid = Manager.build_key kf' mn' uid' := by
  rw [Manager.build_key, Manager.build_key,
    hkf 0 (by decide), hkf 1 (by decide), hkf 2 (by decide), hkf 3 (by decide),
    hkf 6 (by decide), hkf 7 (by decide),
    hmn 0 (by decide), hmn 1 (by decide), hmn 2 (by decide), hmn 3 (by decide),
    hmn 6 (by decide), hmn 7 (by decide),
    huid 1 (by decide), huid 2 (by decide), huid 5 (by decide), huid 6 (by decide)]

lemma pack_ok_inv {ck : Checksum} {table : MaterialTable} {c : Cartridge} {P : List Nat}
    (h : Manager.pack ck table c = .ok P) :
    ∃ mid, get_id_from_name table c.material_name = some mid ∧ P = packBody ck c mid := by
  rw [Manager.pack] at h
  cases hl : get_id_from_name table c.material_name with
  | none => rw [hl] at h; cases h
  | some mid =>
      rw [hl] at h
      exact ⟨mid, rfl, ((Except.ok.injEq _ _).mp h).symm⟩

lemma encode_ok_inv {ck : Checksum} {enc : Cipher} {table : MaterialTable}
    {machine_number eeprom_uid : List Nat} {c : Cartridge} {img : List Nat}
    (h : Manager.encode ck enc table machine_number eeprom_uid c = .ok img) :
    ∃ mid, get_id_from_name table c.material_name = some mid ∧
      img = Manager.encrypt ck enc machine_number eeprom_uid (packBody ck c mid) := by
  rw [Manager.encode] at h
  cases hp : Manager.pack ck table c with
  | error e => rw [hp] at h; simp [Except.map] at h
  | ok P =>
      rw [hp] at h
      simp only [Except.map, Except.ok.injEq] at h
      obtain ⟨mid, hl, hP⟩ := pack_ok_inv hp
      exact ⟨mid, hl, by rw [← h, hP]⟩

/-- The token at 0x46 of an encrypted image is the checksum of that image's own
header bytes (the ciphertext currently sitting there). -/
lemma encrypt_tok46_post {ck : Checksum} {enc : Cipher} {machine_number eeprom_uid p : List Nat}
    (hp : p.length = 113) (hel : ∀ k d, (enc k d).length = d.length) :
    readBytes (Manager.encrypt ck enc machine_number eeprom_uid p) 70 2 =
      le16 (ck (readBytes (Manager.encrypt ck enc machine_number eeprom_uid p) 0 64)) := by
  rw [encrypt_read_tok46 hp hel, encrypt_read_hdr hp hel]

/-- The token at 0x60 of an encrypted image is the checksum of that image's own
quantity bytes (the ciphertext currently sitting there). -/
lemma encrypt_tok60_post {ck : Checksum} {enc : Cipher} {machine_number eeprom_uid p : List Nat}
    (hp : p.length = 113) (hel : ∀ k d, (enc k d).length = d.length) :
    readBytes (Manager.encrypt ck enc machine_number eeprom_uid p) 96 2 =
      le16 (ck (readBytes (Manager.encrypt ck enc machine_number eeprom_uid p) 88 8)) := by
  rw [encrypt_read_tok60 hp hel, encrypt_read_qty hp hel]

lemma padTrunc_of_le {w : Nat} {data : List Nat} (h : w ≤ data.length) :
    padTrunc w data = data.take w := by
  simp [padTrunc, show w - data.length = 0 by omega]

lemma packBody_read_lot (ck : Checksum) (c : Cartridge) (mid : Nat) :
    readBytes (packBody ck c mid) 16 20 = padTrunc 20 c.manufacturing_lot := by
  simp [packBody, readBytes_writeBytes_disjoint]
  simp [packE12, readBytes_writeBytes_disjoint]
  simp [packE11, readBytes_writeBytes_disjoint]
  simp [packE10, readBytes_writeBytes_disjoint]
  simp [packE9, readBytes_writeBytes_disjoint]
  simp [packE8, readBytes_writeBytes_disjoint]
  simp [packE7, readBytes_writeBytes_disjoint]
  simp [packE6, readBytes_writeBytes_disjoint]
  simp [packE5, readBytes_writeBytes_disjoint]
  simp [packE4, readBytes_writeBytes_disjoint]
  simp [packE3, readBytes_writeBytes_self']

lemma getElem?_eq_of_read1 {X Y : List Nat} {i : Nat}
    (h : readBytes X i 1 = readBytes Y i 1) : X[i]? = Y[i]? := by
  have hX : X[i]? = (readBytes X i 1)[0]? := by rw [getElem?_readBytes]; simp
  have hY : Y[i]? = (readBytes Y i 1)[0]? := by rw [getElem?_readBytes]; simp
  rw [hX, hY, h]

lemma ckSum_lt : ∀ bs, ckSum bs < 65536 := fun _ => Nat.mod_lt _ (by norm_num)

lemma xorOne_len : ∀ k d, (xorOne k d).length = d.length := by
  intro k d
  simp [xorOne]

lemma xorOne_inv : ∀ k d, xorOne k (xorOne k d) = d := by
  intro k d
  simp only [xorOne, List.map_map]
  have hcomp : ((fun x => x ^^^ 1) ∘ fun x : Nat => x ^^^ 1) = id := by
    funext x
    exact Nat.xor_cancel_right 1 x
  rw [hcomp, List.map_id]

lemma addOne_len : ∀ k d, (addOne k d).length = d.length := by
  intro k d
  simp [addOne]

/-- C4: build_key is a deterministic pure function whose output byte `i` is the
one's-complement (0xFF minus the byte) of the fixed source byte given by the
selection table, and all-zero inputs yield sixteen 0xFF bytes. -/
theorem C4_derive_key (kf mn uid : List Nat)
    (_hkl : kf.length = 8) (_hml : mn.length = 8) (_hul : uid.length = 8)
    (hkb : ∀ b ∈ kf, b < 256) (hmb : ∀ b ∈ mn, b < 256) (hub : ∀ b ∈ uid, b < 256) :
    Manager.build_key kf mn uid =
      [255 - kf.getD 0 0, 255 - kf.getD 2 0, 255 - uid.getD 2 0, 255 - kf.getD 6 0,
       255 - mn.getD 0 0, 255 - mn.getD 2 0, 255 - uid.getD 6 0, 255 - mn.getD 6 0,
       255 - mn.getD 7 0, 255 - uid.getD 1 0, 255 - mn.getD 3 0, 255 - mn.getD 1 0,
       255 - kf.getD 7 0, 255 - uid.getD 5 0, 255 - kf.getD 3 0, 255 - kf.getD 1 0] ∧
    Manager.build_key (List.replicate 8 0) (List.replicate 8 0) (List.replicate 8 0) =
      List.replicate 16 255 := by
  constructor
  · have hk : ∀ i, kf.getD i 0 % 256 = kf.getD i 0 :=
      fun i => Nat.mod_eq_of_lt (getD_lt_256 hkb i)
    have hm : ∀ i, mn.getD i 0 % 256 = mn.getD i 0 :=
      fun i => Nat.mod_eq_of_lt (getD_lt_256 hmb i)
    have hu : ∀ i, uid.getD i 0 % 256 = uid.getD i 0 :=
      fun i => Nat.mod_eq_of_lt (getD_lt_256 hub i)
    simp only [Manager.build_key, compl8, hk, hm, hu]
  · decide

theorem C4_derive_key_witness :
    Manager.build_key (List.replicate 8 0) (List.replicate 8 0) (List.replicate 8 0) =
      List.replicate 16 255 ∧
    Manager.build_key [1, 2, 3, 4, 5, 6, 7, 8] [9, 10, 11, 12, 13, 14, 15, 16]
        [17, 18, 19, 20, 21, 22, 23, 24] =
      [254, 252, 236, 248, 246, 244, 232, 240, 239, 237, 243, 245, 247, 233, 251, 253] := by
  constructor
  · exact (C4_derive_key (List.replicate 8 0) (List.replicate 8 0) (List.replicate 8 0)
      (by decide) (by decide) (by decide) (by decide) (by decide) (by decide)).2
  · exact ((C4_derive_key [1, 2, 3, 4, 5, 6, 7, 8] [9, 10, 11, 12, 13, 14, 15, 16]
      [17, 18, 19, 20, 21, 22, 23, 24]
      (by decide) (by decide) (by decide) (by decide) (by decide) (by decide)).1).trans
      (by decide)

/-- C10: build_key reads only key-fragment bytes {0,1,2,3,6,7}, machine-number
bytes {0,1,2,3,6,7} and eeprom-uid bytes {1,2,5,6}; triples agreeing there give
identical keys, and decode gives identical results under identifier pairs that
differ only in the unused bytes. -/
theorem C10_unused_id_bytes :
    ∀ (kf kf' machine_number machine_number' eeprom_uid eeprom_uid' : List Nat),
      (∀ i ∈ ([0, 1, 2, 3, 6, 7] : List Nat), kf.getD i 0 = kf'.getD i 0) →
      (∀ i ∈ ([0, 1, 2, 3, 6, 7] : List Nat),
        machine_number.getD i 0 = machine_number'.getD i 0) →
      (∀ i ∈ ([1, 2, 5, 6] : List Nat), eeprom_uid.getD i 0 = eeprom_uid'.getD i 0) →
      Manager.build_key kf machine_number eeprom_uid =
        Manager.build_key kf' machine_number' eeprom_uid' ∧
      ∀ (ck : Checksum) (dec : Cipher) (table : MaterialTable) (img : List Nat),
        Manager.decode ck dec table machine_number eeprom_uid img =
          Manager.decode ck dec table machine_number' eeprom_uid' img := by
  intro kf kf' mn mn' uid uid' hkf hmn huid
  refine ⟨build_key_congr hkf hmn huid, ?_⟩
  intro ck dec table img
  have hkey : ∀ b : List Nat, Manager.build_key b mn uid = Manager.build_key b mn' uid' :=
    fun b => build_key_congr (fun i _ => rfl) hmn huid
  simp only [Manager.decode, Manager.decrypt, decFull, decB1, bufKey, hkey]

theorem C10_unused_id_bytes_witness :
    Manager.build_key [1, 2, 3, 4, 5, 6, 7, 8] [9, 10, 11, 12, 13, 14, 15, 16]
        [17, 18, 19, 20, 21, 22, 23, 24] =
      Manager.build_key [1, 2, 3, 4, 0, 0, 7, 8] [9, 10, 11, 12, 0, 0, 15, 16]
        [0, 18, 19, 0, 0, 22, 23, 0] ∧
    Manager.decode ckSum xorOne wTable [9, 10, 11, 12, 13, 14, 15, 16]
        [17, 18, 19, 20, 21, 22, 23, 24] wImg =
      Manager.decode ckSum xorOne wTable [9, 10, 11, 12, 0, 0, 15, 16]
        [0, 18, 19, 0, 0, 22, 23, 0] wImg := by
  have h := C10_unused_id_bytes [1, 2, 3, 4, 5, 6, 7, 8] [1, 2, 3, 4, 0, 0, 7, 8]
    [9, 10, 11, 12, 13, 14, 15, 16] [9, 10, 11, 12, 0, 0, 15, 16]
    [17, 18, 19, 20, 21, 22, 23, 24] [0, 18, 19, 0, 0, 22, 23, 0]
    (by decide) (by decide) (by decide)
  exact ⟨h.1, h.2 ckSum xorOne wTable wImg⟩

/-- C7: an unknown material name makes pack (and hence encode) fail with the
unknown-material error and produce no image, and an unknown material identifier
makes unpack fail likewise (the lookups are modelled from the spec's Material
Table contract, material.py not being under src/). -/
theorem C7_unknown_material :
    (∀ (ck : Checksum) (table : MaterialTable) (c : Cartridge),
      get_id_from_name table c.material_name = none →
      Manager.pack ck table c = .error (.unknownMaterialName c.material_name)) ∧
    (∀ (ck : Checksum) (enc : Cipher) (table : MaterialTable)
        (machine_number eeprom_uid : List Nat) (c : Cartridge),
      get_id_from_name table c.material_name = none →
      Manager.encode ck enc table machine_number eeprom_uid c =
        .error (.unknownMaterialName c.material_name)) ∧
    (∀ (ck : Checksum) (table : MaterialTable) (p : List Nat),
      ck (readBytes p 0 64) = le16val (readBytes p 64 2) →
      ck (readBytes p 88 8) = le16val (readBytes p 98 2) →
      get_name_from_id table (f64bitsToInt (le64val (readBytes p 8 8))) = none →
      Manager.unpack ck table p =
        .error (.unknownMaterialId (f64bitsToInt (le64val (readBytes p 8 8))))) := by
  refine ⟨?_, ?_, ?_⟩
  · intro ck table c hl
    simp [Manager.pack, hl]
  · intro ck enc table machine_number eeprom_uid c hl
    simp [Manager.encode, Manager.pack, hl, Except.map]
  · intro ck table p hg3 hg4 hl
    exact unpack_unknown_material hg3 hg4 hl

theorem C7_unknown_material_witness :
    Manager.pack ckSum [] rec0 = .error (.unknownMaterialName "ABS") := by
  have h := C7_unknown_material.1 ckSum [] rec0 (by decide)
  exact h

/-- C6 counterexample: a record whose manufacturing lot is 21 UTF-8 bytes is
packed without any error — the image exists and holds the first 20 lot bytes
(struct's `20s` format silently truncates). -/
theorem C6_counterexample :
    20 < recLong.manufacturing_lot.length ∧
    Manager.pack ckSum wTable recLong = .ok (packBody ckSum recLong 1) ∧
    readBytes (packBody ckSum recLong 1) 16 20 = recLong.manufacturing_lot.take 20 := by
  refine ⟨by decide, by decide, by decide⟩

/-- C6 amended: for a record with a known material and a manufacturing lot
longer than 20 bytes, pack succeeds (no EncodingError exists in the code) and
stores the lot truncated to its first 20 bytes. -/
theorem C6_amended :
    ∀ (ck : Checksum) (table : MaterialTable) (c : Cartridge) (mid : Nat),
      get_id_from_name table c.material_name = some mid →
      20 < c.manufacturing_lot.length →
      Manager.pack ck table c = .ok (packBody ck c mid) ∧
      readBytes (packBody ck c mid) 16 20 = c.manufacturing_lot.take 20 := by
  intro ck table c mid hl hlen
  refine ⟨by simp [Manager.pack, hl], ?_⟩
  rw [packBody_read_lot, padTrunc_of_le (by omega)]

theorem C6_amended_witness :
    Manager.pack ckSum wTable recLong = .ok (packBody ckSum recLong 1) ∧
    readBytes (packBody ckSum recLong 1) 16 20 = recLong.manufacturing_lot.take 20 :=
  C6_amended ckSum wTable recLong 1 (by decide) (by decide)

/-- C3 counterexample: with a byte-increment cipher and a summation checksum,
the 16-bit values stored at 0x46 and 0x60 by encrypt differ from the checksums
of the pre-transformation plaintext of their regions — they are not plaintext
checksums. -/
theorem C3_counterexample :
    readBytes (Manager.encrypt ckSum addOne wMn wUid wPacked) 70 2 ≠
      le16 (ckSum (readBytes wPacked 0 64)) ∧
    readBytes (Manager.encrypt ckSum addOne wMn wUid wPacked) 96 2 ≠
      le16 (ckSum (readBytes wPacked 88 8)) := by
  refine ⟨by decide, by decide⟩

/-- C3 amended: the values stored into 0x46 and 0x60 during encryption are
checksums of the post-transformation ciphertext bytes of the header and
quantity regions (the aliasing of line 181 makes lines 191 and 195 read the
already-encrypted regions), not of the plaintext. -/
theorem C3_amended :
    ∀ (ck : Checksum) (enc : Cipher) (machine_number eeprom_uid p : List Nat),
      p.length = 113 → (∀ k d, (enc k d).length = d.length) →
      readBytes (Manager.encrypt ck enc machine_number eeprom_uid p) 70 2 =
        le16 (ck (readBytes (Manager.encrypt ck enc machine_number eeprom_uid p) 0 64)) ∧
      readBytes (Manager.encrypt ck enc machine_number eeprom_uid p) 96 2 =
        le16 (ck (readBytes (Manager.encrypt ck enc machine_number eeprom_uid p) 88 8)) :=
  fun _ _ _ _ _ hp hel => ⟨encrypt_tok46_post hp hel, encrypt_tok60_post hp hel⟩

theorem C3_amended_witness :
    readBytes (Manager.encrypt ckSum addOne wMn wUid wPacked) 70 2 =
      le16 (ckSum (readBytes (Manager.encrypt ckSum addOne wMn wUid wPacked) 0 64)) ∧
    readBytes (Manager.encrypt ckSum addOne wMn wUid wPacked) 96 2 =
      le16 (ckSum (readBytes (Manager.encrypt ckSum addOne wMn wUid wPacked) 88 8)) :=
  C3_amended ckSum addOne wMn wUid wPacked (by decide) addOne_len

/-- C2: decode's validation gates run in order — the ciphertext-side header
checksum at 0x46 before decrypting the header, the quantity checksum at 0x60
before decrypting the quantity region, and the plaintext-header checksum at
0x40 before returning — each mismatch aborting with the integrity error of its
gate, and a record is returned only if all gates passed. -/
theorem C2_decode_gate_order :
    ∀ (ck : Checksum) (dec : Cipher) (table : MaterialTable)
      (machine_number eeprom_uid img : List Nat),
      img.length = 113 → (∀ k d, (dec k d).length = d.length) →
      (ck (readBytes img 0 64) ≠ le16val (readBytes img 70 2) →
        Manager.decode ck dec table machine_number eeprom_uid img =
          .error (.integrity .cryptedContent)) ∧
      (ck (readBytes img 0 64) = le16val (readBytes img 70 2) →
        ck (readBytes img 88 8) ≠ le16val (readBytes img 96 2) →
        Manager.decode ck dec table machine_number eeprom_uid img =
          .error (.integrity .cryptedQuantity)) ∧
      (∀ c, Manager.decode ck dec table machine_number eeprom_uid img = .ok c →
        ck (readBytes img 0 64) = le16val (readBytes img 70 2) ∧
        ck (readBytes img 88 8) = le16val (readBytes img 96 2) ∧
        ck (readBytes (decFull dec machine_number eeprom_uid img) 0 64) =
          le16val (readBytes (decFull dec machine_number eeprom_uid img) 64 2)) := by
  intro ck dec table machine_number eeprom_uid img himg hdl
  have hb88 : readBytes (decB1 dec machine_number eeprom_uid img) 88 8 =
      readBytes img 88 8 := decB1_read_high 88 8 himg hdl (by omega)
  have hb96 : readBytes (decB1 dec machine_number eeprom_uid img) 96 2 =
      readBytes img 96 2 := decB1_read_high 96 2 himg hdl (by omega)
  refine ⟨?_, ?_, ?_⟩
  · intro hg1
    rw [Manager.decode, decrypt_gate1_fail hg1]
    rfl
  · intro hg1 hg2
    rw [Manager.decode, decrypt_gate2_fail hg1 (by rw [hb88, hb96]; exact hg2)]
    rfl
  · intro c h
    rw [Manager.decode] at h
    cases hE : Manager.decrypt ck dec machine_number eeprom_uid img with
    | error e =>
        rw [hE] at h
        simp [Except.bind] at h
    | ok out =>
        rw [hE] at h
        simp only [Except.bind] at h
        obtain ⟨hg1, hg2, hout⟩ := decrypt_ok_inv hE
        subst hout
        have hu := unpack_ok_inv h
        exact ⟨hg1, by rw [← hb88, ← hb96]; exact hg2, hu.1⟩

theorem C2_decode_gate_order_witness :
    Manager.decode ckSum xorOne wTable wMn wUid (flipBit wImg 70 0) =
      .error (.integrity .cryptedContent) :=
  (C2_decode_gate_order ckSum xorOne wTable wMn wUid (flipBit wImg 70 0)
    (by decide) xorOne_len).1 (by decide)

/-- C9: encrypt and decrypt leave every byte outside the header region, the two
token slots and the quantity region unchanged; in particular the key fragment
at [0x48,0x50), the key checksum at 0x50 and the signature at 0x68 are
byte-identical before and after both transformations. -/
theorem C9_key_fragment_never_encrypted :
    ∀ (ck : Checksum) (enc dec : Cipher)
      (machine_number eeprom_uid p img out : List Nat),
      p.length = 113 → img.length = 113 →
      (∀ k d, (dec k d).length = d.length) →
      Manager.decrypt ck dec machine_number eeprom_uid img = .ok out →
      (∀ i, 64 ≤ i → i < 70 ∨ 72 ≤ i → i < 88 ∨ 98 ≤ i →
        (Manager.encrypt ck enc machine_number eeprom_uid p)[i]? = p[i]? ∧
        out[i]? = img[i]?) ∧
      readBytes (Manager.encrypt ck enc machine_number eeprom_uid p) 72 8 =
        readBytes p 72 8 ∧
      readBytes (Manager.encrypt ck enc machine_number eeprom_uid p) 80 2 =
        readBytes p 80 2 ∧
      readBytes (Manager.encrypt ck enc machine_number eeprom_uid p) 104 9 =
        readBytes p 104 9 ∧
      readBytes out 72 8 = readBytes img 72 8 ∧
      readBytes out 80 2 = readBytes img 80 2 ∧
      readBytes out 104 9 = readBytes img 104 9 := by
  intro ck enc dec machine_number eeprom_uid p img out hp himg hdl hdec
  obtain ⟨hg1, hg2, hout⟩ := decrypt_ok_inv hdec
  subst hout
  refine ⟨?_, ?_, ?_, ?_, ?_, ?_, ?_⟩
  · intro i h1 h2 h3
    exact ⟨getElem?_eq_of_read1 (encrypt_read_untouched i 1 hp h1 (by omega)),
      getElem?_eq_of_read1 (decFull_read_untouched i 1 himg hdl h1 (by omega))⟩
  · exact encrypt_read_untouched 72 8 hp (by omega) (by omega)
  · exact encrypt_read_untouched 80 2 hp (by omega) (by omega)
  · exact encrypt_read_untouched 104 9 hp (by omega) (by omega)
  · exact decFull_read_untouched 72 8 himg hdl (by omega) (by omega)
  · exact decFull_read_untouched 80 2 himg hdl (by omega) (by omega)
  · exact decFull_read_untouched 104 9 himg hdl (by omega) (by omega)

theorem C9_key_fragment_never_encrypted_witness :
    readBytes (Manager.encrypt ckSum xorOne wMn wUid wPacked) 72 8 =
      readBytes wPacked 72 8 ∧
    readBytes (decFull xorOne wMn wUid wImg) 72 8 = readBytes wImg 72 8 := by
  have h := C9_key_fragment_never_encrypted ckSum xorOne xorOne wMn wUid wPacked wImg
    (decFull xorOne wMn wUid wImg) (by decide) (by decide) xorOne_len (by decide)
  exact ⟨h.2.1, h.2.2.2.2.1⟩

/-- C8 counterexample: encrypt overwrites the very buffer object it is passed
(line 181 aliases, every pack_into mutates in place), so after the call the
caller's packed buffer no longer holds its original content; likewise decode
leaves the caller's image decrypted in place rather than unchanged. -/
theorem C8_counterexample :
    Manager.encryptArgAfter ckSum xorOne wMn wUid wPacked ≠ wPacked ∧
    Manager.decryptArgAfter ckSum xorOne wMn wUid wImg ≠ wImg := by
  refine ⟨by decide, by decide⟩

/-- C8 amended: pack, unpack and build_key allocate fresh outputs, but encrypt
and decrypt write their output into the argument buffer in place: the buffer a
caller passed holds, after the call, the returned image (encrypt), the
untouched image if the first gate raised, the header-decrypted image if the
second gate raised, and the fully decrypted buffer on success — the state
decode leaves the caller's image in. -/
theorem C8_amended :
    ∀ (ck : Checksum) (enc dec : Cipher) (machine_number eeprom_uid p img out : List Nat),
      Manager.encryptArgAfter ck enc machine_number eeprom_uid p =
        Manager.encrypt ck enc machine_number eeprom_uid p ∧
      (Manager.decrypt ck dec machine_number eeprom_uid img =
          .error (.integrity .cryptedContent) →
        Manager.decryptArgAfter ck dec machine_number eeprom_uid img = img) ∧
      (Manager.decrypt ck dec machine_number eeprom_uid img =
          .error (.integrity .cryptedQuantity) →
        Manager.decryptArgAfter ck dec machine_number eeprom_uid img =
          decB1 dec machine_number eeprom_uid img) ∧
      (Manager.decrypt ck dec machine_number eeprom_uid img = .ok out →
        Manager.decryptArgAfter ck dec machine_number eeprom_uid img = out) := by
  intro ck enc dec machine_number eeprom_uid p img out
  refine ⟨rfl, ?_, ?_, ?_⟩
  · intro h
    rw [Manager.decrypt] at h
    rw [Manager.decryptArgAfter]
    split_ifs at h ⊢ with h1 h2 <;>
      first | rfl | exact (Except.ok.injEq _ _).mp h | simp at h
  · intro h
    rw [Manager.decrypt] at h
    rw [Manager.decryptArgAfter]
    split_ifs at h ⊢ with h1 h2 <;>
      first | rfl | exact (Except.ok.injEq _ _).mp h | simp at h
  · intro h
    rw [Manager.decrypt] at h
    rw [Manager.decryptArgAfter]
    split_ifs at h ⊢ with h1 h2
    exact (Except.ok.injEq _ _).mp h

theorem C8_amended_witness :
    Manager.decryptArgAfter ckSum xorOne wMn wUid wImg = decFull xorOne wMn wUid wImg :=
  (C8_amended ckSum xorOne xorOne wMn wUid wPacked wImg
    (decFull xorOne wMn wUid wImg)).2.2.2 (by decide)

/-- C5: flipping any bit of a byte inside [0x00,0x40) or [0x58,0x60) of an image
produced by encode, then decoding with the original identifiers, raises the
integrity error of the corresponding ciphertext gate before any field is
returned — provided the Checksum Port detects the change of the affected
region. -/
theorem C5_tamper_detection :
    ∀ (ck : Checksum) (enc dec : Cipher) (table : MaterialTable)
      (machine_number eeprom_uid : List Nat) (c : Cartridge) (img : List Nat) (pos bit : Nat),
      (∀ bs, ck bs < 65536) →
      (∀ k d, (enc k d).length = d.length) →
      (∀ k d, (dec k d).length = d.length) →
      Manager.encode ck enc table machine_number eeprom_uid c = .ok img →
      (pos < 64 ∨ (88 ≤ pos ∧ pos < 96)) →
      (pos < 64 → ck (readBytes (flipBit img pos bit) 0 64) ≠ ck (readBytes img 0 64)) →
      (88 ≤ pos → ck (readBytes (flipBit img pos bit) 88 8) ≠ ck (readBytes img 88 8)) →
      Manager.decode ck dec table machine_number eeprom_uid (flipBit img pos bit) =
        .error (.integrity (if pos < 64 then Gate.cryptedContent else Gate.cryptedQuantity)) := by
  intro ck enc dec table machine_number eeprom_uid c img pos bit hck hel hdl henc hpos hdet1 hdet2
  obtain ⟨mid, hl, himg⟩ := encode_ok_inv henc
  subst himg
  have hplen : (packBody ck c mid).length = 113 := length_packBody ck c mid
  set IMG := Manager.encrypt ck enc machine_number eeprom_uid (packBody ck c mid) with hIMG
  have himglen : IMG.length = 113 := length_encrypt hplen
  have tok46 : readBytes IMG 70 2 = le16 (ck (readBytes IMG 0 64)) :=
    encrypt_tok46_post hplen hel
  have tok60 : readBytes IMG 96 2 = le16 (ck (readBytes IMG 88 8)) :=
    encrypt_tok60_post hplen hel
  set img' := flipBit IMG pos bit with himg'
  have himg'ok : img' = writeBytes IMG pos [IMG.getD pos 0 ^^^ 2 ^ bit] := rfl
  have himg'len : img'.length = 113 := by
    rw [himg'ok, length_writeBytes (by simp [himglen]; omega)]
    exact himglen
  rcases hpos with hlt | ⟨h88, h96⟩
  · have hr70 : readBytes img' 70 2 = readBytes IMG 70 2 := by
      rw [himg'ok]
      exact readBytes_writeBytes_disjoint 70 2 (by simp [himglen]; omega) (by simp; omega)
    have hg1 : ck (readBytes img' 0 64) ≠ le16val (readBytes img' 70 2) := by
      rw [hr70, tok46, le16val_le16_of_lt (hck _)]
      exact hdet1 hlt
    rw [if_pos hlt, Manager.decode, decrypt_gate1_fail hg1]
    rfl
  · have hr0 : readBytes img' 0 64 = readBytes IMG 0 64 := by
      rw [himg'ok]
      exact readBytes_writeBytes_disjoint 0 64 (by simp [himglen]; omega) (by simp; omega)
    have hr70 : readBytes img' 70 2 = readBytes IMG 70 2 := by
      rw [himg'ok]
      exact readBytes_writeBytes_disjoint 70 2 (by simp [himglen]; omega) (by simp; omega)
    have hg1 : ck (readBytes img' 0 64) = le16val (readBytes img' 70 2) := by
      rw [hr0, hr70, tok46, le16val_le16_of_lt (hck _)]
    have hb88 : readBytes (decB1 dec machine_number eeprom_uid img') 88 8 =
        readBytes img' 88 8 := decB1_read_high 88 8 himg'len hdl (by omega)
    have hb96 : readBytes (decB1 dec machine_number eeprom_uid img') 96 2 =
        readBytes img' 96 2 := decB1_read_high 96 2 himg'len hdl (by omega)
    have hr96 : readBytes img' 96 2 = readBytes IMG 96 2 := by
      rw [himg'ok]
      exact readBytes_writeBytes_disjoint 96 2 (by simp [himglen]; omega) (by simp; omega)
    have hg2 : ck (readBytes (decB1 dec machine_number eeprom_uid img') 88 8) ≠
        le16val (readBytes (decB1 dec machine_number eeprom_uid img') 96 2) := by
      rw [hb88, hb96, hr96, tok60, le16val_le16_of_lt (hck _)]
      exact hdet2 h88
    rw [if_neg (by omega), Manager.decode, decrypt_gate2_fail hg1 hg2]
    rfl

theorem C5_tamper_detection_witness :
    Manager.decode ckSum xorOne wTable wMn wUid (flipBit wImg 3 0) =
      .error (.integrity .cryptedContent) := by
  have h := C5_tamper_detection ckSum xorOne xorOne wTable wMn wUid rec0 wImg 3 0
    ckSum_lt xorOne_len xorOne_len (by decide) (by omega)
    (by intro _; decide) (by intro hc; exact absurd hc (by decide))
  simpa using h

/-- C1: decoding the image produced by encoding a valid record with a given
identifier pair returns the record unchanged field-for-field (dates carried at
second precision), assuming the Cipher Port's decrypt inverts its encrypt
(length-preservingly) and the Checksum Port is a pure 16-bit function. -/
theorem C1_round_trip :
    ∀ (ck : Checksum) (enc dec : Cipher) (table : MaterialTable)
      (machine_number eeprom_uid : List Nat) (c : Cartridge) (mid : Nat),
      ValidCartridge c →
      get_id_from_name table c.material_name = some mid →
      mid < 9007199254740992 →
      get_name_from_id table (mid : Int) = some c.material_name →
      (∀ bs, ck bs < 65536) →
      (∀ k d, (enc k d).length = d.length) →
      (∀ k d, dec k (enc k d) = d) →
      (Manager.encode ck enc table machine_number eeprom_uid c).bind
        (Manager.decode ck dec table machine_number eeprom_uid) = .ok c := by
  intro ck enc dec table machine_number eeprom_uid c mid hv hmid hmidlt hname hck hel hinv
  obtain ⟨hs64, hi64, hc64, hv16, hdate1, hdate2, hlot20, hlotb, hkf8, _hkfb, hsig9, _hsigb⟩ := hv
  have hpack : Manager.pack ck table c = .ok (packBody ck c mid) := by
    simp [Manager.pack, hmid]
  have henc : Manager.encode ck enc table machine_number eeprom_uid c =
      .ok (Manager.encrypt ck enc machine_number eeprom_uid (packBody ck c mid)) := by
    rw [Manager.encode, hpack]
    rfl
  rw [henc]
  simp only [Except.bind]
  have hplen : (packBody ck c mid).length = 113 := length_packBody ck c mid
  set P := packBody ck c mid with hP
  set IMG := Manager.encrypt ck enc machine_number eeprom_uid P with hIMG
  have himglen : IMG.length = 113 := length_encrypt hplen
  set K := bufKey P machine_number eeprom_uid with hK
  have hKimg : bufKey IMG machine_number eeprom_uid = K := encrypt_bufKey hplen
  have hPhdr : readBytes P 0 64 = hdrBytes c mid := packBody_read_hdr ck c mid
  have hPplainck : readBytes P 64 2 = le16 (ck (hdrBytes c mid)) := packBody_read_plainCk ck c mid
  have hPkf : readBytes P 72 8 = padTrunc 8 c.key_fragment := packBody_read_kf ck c mid
  have hPqty : readBytes P 88 8 = le64 c.current_material_quantity :=
    packBody_read_curQty ck c mid
  have hPqtyck : readBytes P 98 2 = le16 (ck (le64 c.current_material_quantity)) :=
    packBody_read_qtyCk ck c mid
  have hPsig : readBytes P 104 9 = padTrunc 9 c.signature := packBody_read_sig ck c mid
  have hIhdr : readBytes IMG 0 64 = enc K (hdrBytes c mid) := by
    rw [hIMG, hK, encrypt_read_hdr hplen hel, hPhdr]
  have hItok46 : readBytes IMG 70 2 = le16 (ck (enc K (hdrBytes c mid))) := by
    rw [hIMG, hK, encrypt_read_tok46 hplen hel, hPhdr]
  have hIplain : readBytes IMG 64 2 = le16 (ck (hdrBytes c mid)) := by
    rw [hIMG, encrypt_read_untouched 64 2 hplen (by omega) (by omega), hPplainck]
  have hIkf : readBytes IMG 72 8 = padTrunc 8 c.key_fragment := by
    rw [hIMG, encrypt_read_untouched 72 8 hplen (by omega) (by omega), hPkf]
  have hIqty : readBytes IMG 88 8 = enc K (le64 c.current_material_quantity) := by
    rw [hIMG, hK, encrypt_read_qty hplen hel, hPqty]
  have hItok60 : readBytes IMG 96 2 = le16 (ck (enc K (le64 c.current_material_quantity))) := by
    rw [hIMG, hK, encrypt_read_tok60 hplen hel, hPqty]
  have hIqtyck : readBytes IMG 98 2 = le16 (ck (le64 c.current_material_quantity)) := by
    rw [hIMG, encrypt_read_untouched 98 2 hplen (by omega) (by omega), hPqtyck]
  have hIsig : readBytes IMG 104 9 = padTrunc 9 c.signature := by
    rw [hIMG, encrypt_read_untouched 104 9 hplen (by omega) (by omega), hPsig]
  have hg1 : ck (readBytes IMG 0 64) = le16val (readBytes IMG 70 2) := by
    rw [hIhdr, hItok46, le16val_le16_of_lt (hck _)]
  have hD1 : dec (bufKey IMG machine_number eeprom_uid) (readBytes IMG 0 64) =
      hdrBytes c mid := by
    rw [hKimg, hIhdr, hinv]
  have hb1 : decB1 dec machine_number eeprom_uid IMG = writeBytes IMG 0 (hdrBytes c mid) := by
    rw [decB1, hD1]
    exact spliceBytes_eq_writeBytes (by simp)
  have hb1_88 : readBytes (decB1 dec machine_number eeprom_uid IMG) 88 8 =
      enc K (le64 c.current_material_quantity) := by
    rw [hb1, readBytes_writeBytes_disjoint 88 8 (by simp [himglen]) (by simp), hIqty]
  have hb1_96 : readBytes (decB1 dec machine_number eeprom_uid IMG) 96 2 =
      le16 (ck (enc K (le64 c.current_material_quantity))) := by
    rw [hb1, readBytes_writeBytes_disjoint 96 2 (by simp [himglen]) (by simp), hItok60]
  have hg2 : ck (readBytes (decB1 dec machine_number eeprom_uid IMG) 88 8) =
      le16val (readBytes (decB1 dec machine_number eeprom_uid IMG) 96 2) := by
    rw [hb1_88, hb1_96, le16val_le16_of_lt (hck _)]
  have hdec : Manager.decrypt ck dec machine_number eeprom_uid IMG =
      .ok (decFull dec machine_number eeprom_uid IMG) := decrypt_ok hg1 hg2
  have hD2 : dec (bufKey IMG machine_number eeprom_uid)
      (readBytes (decB1 dec machine_number eeprom_uid IMG) 88 8) =
      le64 c.current_material_quantity := by
    rw [hKimg, hb1_88, hinv]
  have hW : decFull dec machine_number eeprom_uid IMG =
      writeBytes (writeBytes IMG 0 (hdrBytes c mid)) 88
        (le64 c.current_material_quantity) := by
    rw [decFull, hD2, hb1]
    exact spliceBytes_eq_writeBytes (by simp)
  set W := writeBytes (writeBytes IMG 0 (hdrBytes c mid)) 88
    (le64 c.current_material_quantity) with hWdef
  have hWin : (writeBytes IMG 0 (hdrBytes c mid)).length = 113 := by
    rw [length_writeBytes (by simp [himglen])]
    exact himglen
  have hWhdrregion : ∀ off len, off + len ≤ 64 →
      readBytes W off len = readBytes (hdrBytes c mid) off len := by
    intro off len h
    rw [hWdef,
      readBytes_writeBytes_disjoint off len (by simp [hWin]) (by simp; omega),
      readBytes_writeBytes_within off len (by simp [himglen]) (by omega) (by simp; omega),
      Nat.sub_zero]
  have hWhigh : ∀ off len, 64 ≤ off → off + len ≤ 88 ∨ 96 ≤ off →
      readBytes W off len = readBytes IMG off len := by
    intro off len h1 h2
    rw [hWdef,
      readBytes_writeBytes_disjoint off len (by simp [hWin]) (by simp; omega),
      readBytes_writeBytes_disjoint off len (by simp [himglen]) (by simp; omega)]
  have hW88 : readBytes W 88 8 = le64 c.current_material_quantity := by
    rw [hWdef, readBytes_writeBytes_self' (by simp [hWin]) (by simp)]
  have hg3 : ck (readBytes W 0 64) = le16val (readBytes W 64 2) := by
    rw [hWhdrregion 0 64 (by omega), readBytes_all (by simp),
      hWhigh 64 2 (by omega) (by omega), hIplain, le16val_le16_of_lt (hck _)]
  have hg4 : ck (readBytes W 88 8) = le16val (readBytes W 98 2) := by
    rw [hW88, hWhigh 98 2 (by omega) (by omega), hIqtyck, le16val_le16_of_lt (hck _)]
  have hfid : f64bitsToInt (le64val (readBytes W 8 8)) = (mid : Int) := by
    rw [hWhdrregion 8 8 (by omega), hdrBytes_read_mid,
      le64val_le64_of_lt (natToF64bits_lt (by omega)),
      f64bitsToInt_natToF64bits (by omega)]
  have hnm : get_name_from_id table (f64bitsToInt (le64val (readBytes W 8 8))) =
      some c.material_name := by
    rw [hfid]
    exact hname
  have hser : le64val (readBytes W 0 8) = c.serial_number := by
    rw [hWhdrregion 0 8 (by omega), hdrBytes_read_serial, le64val_le64_of_lt hs64]
  have hlotW : (readBytes W 16 20).takeWhile (fun b => b != 0) = c.manufacturing_lot := by
    rw [hWhdrregion 16 20 (by omega), hdrBytes_read_lot,
      takeWhile_padTrunc hlot20 (fun b hb => (hlotb b hb).1)]
  have hver : le16val (readBytes W 36 2) = c.version := by
    rw [hWhdrregion 36 2 (by omega), hdrBytes_read_version, le16val_le16_of_lt hv16]
  have hdm : unpackDate (readBytes W 40 8) = c.manufacturing_date := by
    rw [hWhdrregion 40 8 (by omega), hdrBytes_read_mfgDate, unpackDate_packDate hdate1]
  have hdu : unpackDate (readBytes W 48 8) = c.last_use_date := by
    rw [hWhdrregion 48 8 (by omega), hdrBytes_read_useDate, unpackDate_packDate hdate2]
  have hinit : le64val (readBytes W 56 8) = c.initial_material_quantity := by
    rw [hWhdrregion 56 8 (by omega), hdrBytes_read_initQty, le64val_le64_of_lt hi64]
  have hcur : le64val (readBytes W 88 8) = c.current_material_quantity := by
    rw [hW88, le64val_le64_of_lt hc64]
  have hkfW : readBytes W 72 8 = c.key_fragment := by
    rw [hWhigh 72 8 (by omega) (by omega), hIkf, padTrunc_of_length hkf8]
  have hsigW : readBytes W 104 9 = c.signature := by
    rw [hWhigh 104 9 (by omega) (by omega), hIsig, padTrunc_of_length hsig9]
  rw [Manager.decode, hdec]
  simp only [Except.bind]
  rw [hW, unpack_ok hg3 hg4 hnm, hser, hlotW, hver, hdm, hdu, hinit, hcur, hkfW, hsigW]

theorem C1_round_trip_witness :
    (Manager.encode ckSum xorOne wTable wMn wUid rec0).bind
      (Manager.decode ckSum xorOne wTable wMn wUid) = .ok rec0 :=
  C1_round_trip ckSum xorOne xorOne wTable wMn wUid rec0 1 (by decide) (by decide)
    (by decide) (by decide) ckSum_lt xorOne_len xorOne_inv

end Stratatools
